import Mathlib

/-!
Verification development for the GATHODE/CATHODE plate-reader growth-curve
analysis engine.  The definitions below are a shallow embedding of the
relevant parts of `platereader/statusmessage.py`, `platereader/numpytools.py`,
`platereader/replicate.py` and `platereader/clsreplicate.py`.

Numerical conventions of the embedding:
* floating point values are modelled by `ℚ`;
* a numpy `NaN` entry is modelled by `none` in a `List (Option ℚ)`;
* a Python `None` array is modelled by an outer `Option`;
* the transcendental library functions (`math.exp`, `math.log`, `2**x`,
  `math.log(2)`) are kept as explicit function/constant parameters of the
  embedded definitions, since the analysed control flow does not depend on
  their analytic properties.
-/

namespace Gathode

/-- Severity levels, mirroring the source enum
`Severity=enum(message=1,failed=2,warning=3)` of `statusmessage.py`. -/
inductive Severity where
| message
| failed
| warning
deriving DecidableEq

/-- Numeric value of a severity, exactly the numbers assigned by the source
enum (`message=1`, `failed=2`, `warning=3`). -/
def Severity.toNat : Severity → Nat
| .message => 1
| .failed => 2
| .warning => 3

/-- A `StatusMessage` is either a single keyed status (key, short message,
long message, severity, and the optional `severity2` keyword argument,
defaulting to `0` as in `StatusMessage.severity2`) or a list of
substatuses. -/
inductive StatusMessage where
| single (key shortmsg longmsg : String) (sev : Severity) (sev2 : Nat)
| slist (subs : List StatusMessage)

mutual

/-- `StatusMessage.severity`: the severity of a single status, or for a list
of substatuses the highest severity encountered (the source loops with
`if thissev > sev: sev=thissev` starting from `Severity.message`). -/
def StatusMessage.severity : StatusMessage → Severity
| .single _ _ _ sev _ => sev
| .slist subs => StatusMessage.severityFold Severity.message subs

/-- Accumulator loop of `StatusMessage.severity` over the substatuses. -/
def StatusMessage.severityFold : Severity → List StatusMessage → Severity
| sev, [] => sev
| sev, st :: rest =>
  StatusMessage.severityFold
    (if sev.toNat < st.severity.toNat then st.severity else sev) rest

end

/-- `StatusMessage.severity2`: the secondary severity; `0` unless this is a
single status that was given a `severity2` keyword. -/
def StatusMessage.severity2 : StatusMessage → Nat
| .single _ _ _ _ s2 => s2
| .slist _ => 0

mutual

/-- `StatusMessage.statusesWithKey`: all substatuses (recursively) whose key
equals the given key. -/
def StatusMessage.statusesWithKey : StatusMessage → String → List StatusMessage
| .single k s l sev s2, key =>
  if k = key then [.single k s l sev s2] else []
| .slist subs, key => StatusMessage.statusesWithKeyFold key subs

/-- Concatenation loop of `StatusMessage.statusesWithKey` over substatuses. -/
def StatusMessage.statusesWithKeyFold : String → List StatusMessage → List StatusMessage
| _, [] => []
| key, st :: rest =>
  st.statusesWithKey key ++ StatusMessage.statusesWithKeyFold key rest

end

/-- Lookup in the association list used to model the Python dict built by
`StatusMessage.type2status`. -/
def assocFind (k : String) : List (String × StatusMessage) → Option StatusMessage
| [] => none
| (k2, v) :: rest => if k2 = k then some v else assocFind k rest

/-- Replace the value stored for an existing key of the association list
(dict assignment for a key that is already present). -/
def assocSet (k : String) (v : StatusMessage) :
    List (String × StatusMessage) → List (String × StatusMessage)
| [] => []
| (k2, v2) :: rest =>
  if k2 = k then (k2, v) :: rest else (k2, v2) :: assocSet k v rest

/-- One dict update of `StatusMessage.type2status`: an entry that already
exists is kept unless the new status has strictly higher priority (the
source skips when `new.severity() <= old.severity()` or when the severities
are equal and `new.severity2() <= old.severity2()`). -/
def type2statusInsert (acc : List (String × StatusMessage)) (k : String)
    (s : StatusMessage) : List (String × StatusMessage) :=
  match assocFind k acc with
  | some old =>
    if s.severity.toNat ≤ old.severity.toNat ∨
        (s.severity.toNat = old.severity.toNat ∧ s.severity2 ≤ old.severity2) then
      acc
    else
      assocSet k s acc
  | none => acc ++ [(k, s)]

/-- Merge a list of `(messageType, status)` pairs into the accumulated dict,
entry by entry. -/
def type2statusMerge (acc : List (String × StatusMessage)) :
    List (String × StatusMessage) → List (String × StatusMessage)
| [] => acc
| (k, s) :: rest => type2statusMerge (type2statusInsert acc k s) rest

mutual

/-- `StatusMessage.type2status`: for each message type (key) the highest
priority status, as an association list in insertion order. -/
def StatusMessage.type2status : StatusMessage → List (String × StatusMessage)
| .single k s l sev s2 => [(k, .single k s l sev s2)]
| .slist subs => StatusMessage.type2statusFold [] subs

/-- Loop of `StatusMessage.type2status` over the substatuses. -/
def StatusMessage.type2statusFold :
    List (String × StatusMessage) → List StatusMessage → List (String × StatusMessage)
| acc, [] => acc
| acc, st :: rest =>
  StatusMessage.type2statusFold (type2statusMerge acc st.type2status) rest

end

/-- `maskedArrayToMeanVar` of `numpytools.py` (no-axis path), for an array
whose masked entries (`idcs`, by default the NaN entries) are modelled by
`none`.  Returns `(None, None)` when every entry is masked; otherwise the
mean of the unmasked entries, and their variance with the given `ddof` —
the variance degenerates to NaN when `n - ddof = 0` and is then converted
to `None` by the source's final NaN check. -/
def maskedArrayToMeanVar (marr : List (Option ℚ)) (ddof : Nat) :
    Option ℚ × Option ℚ :=
  let vals := marr.filterMap id
  if vals.length = 0 then (none, none)
  else
    let n : ℚ := vals.length
    let themean := vals.sum / n
    let thevar :=
      if vals.length ≤ ddof then none
      else some (((vals.map (fun x => (x - themean) ^ 2)).sum) / (n - (ddof : ℚ)))
    (some themean, thevar)

/-- `notNanAndGreaterEqual` of `numpytools.py`: NaN entries (here `none`)
compare as `val - 42 >= val`, i.e. `false`. -/
def notNanAndGreaterEqual (v : Option ℚ) (val : ℚ) : Bool :=
  match v with
  | some x => decide (val ≤ x)
  | none => false

/-- The `Replicate._isPurePlateParameter` table: parameters that can only be
set on the plate. -/
def isPurePlateParameter (par : String) : Bool :=
  par == "smoothingK" || par == "smoothingS" || par == "hdCorrectionLinear" ||
  par == "hdCorrectionQuadratic" || par == "hdCorrectionCubic" ||
  par == "slidingWindowSize" || par == "lagAtLogOdEquals" || par == "logOdCutoff"

/-- The `_inheritableParameters` dict of a `Replicate` (well or replicate
group): exactly the four keys created by `Replicate.__init__`, each holding
an optional explicit override. -/
structure ReplicateParams (α : Type) where
  maxGrowthLowerTimeCutoff : Option α
  maxGrowthUpperTimeCutoff : Option α
  allowMaxGrowthrateAtLowerCutoff : Option α
  allowGrowthyieldSlopeNStderrAwayFromZero : Option α
deriving DecidableEq

/-- Dict lookup in a replicate's `_inheritableParameters`: `none` means the
key is absent (the source raises `RuntimeError` for such a parameter). -/
def ReplicateParams.lookup (ps : ReplicateParams α) : String → Option (Option α)
| "maxGrowthLowerTimeCutoff" => some ps.maxGrowthLowerTimeCutoff
| "maxGrowthUpperTimeCutoff" => some ps.maxGrowthUpperTimeCutoff
| "allowMaxGrowthrateAtLowerCutoff" => some ps.allowMaxGrowthrateAtLowerCutoff
| "allowGrowthyieldSlopeNStderrAwayFromZero" =>
  some ps.allowGrowthyieldSlopeNStderrAwayFromZero
| _ => none

/-- The `_inheritableParameters` dict of a `Plate`: the twelve keys created
by `Plate.__init__` (the plate-level defaults). -/
structure PlateParams (α : Type) where
  maxGrowthLowerTimeCutoff : Option α
  maxGrowthUpperTimeCutoff : Option α
  allowMaxGrowthrateAtLowerCutoff : Option α
  allowGrowthyieldSlopeNStderrAwayFromZero : Option α
  logOdCutoff : Option α
  lagAtLogOdEquals : Option α
  slidingWindowSize : Option α
  hdCorrectionLinear : Option α
  hdCorrectionQuadratic : Option α
  hdCorrectionCubic : Option α
  smoothingK : Option α
  smoothingS : Option α
deriving DecidableEq

/-- Dict lookup in the plate's `_inheritableParameters`. -/
def PlateParams.lookup (ps : PlateParams α) : String → Option (Option α)
| "maxGrowthLowerTimeCutoff" => some ps.maxGrowthLowerTimeCutoff
| "maxGrowthUpperTimeCutoff" => some ps.maxGrowthUpperTimeCutoff
| "allowMaxGrowthrateAtLowerCutoff" => some ps.allowMaxGrowthrateAtLowerCutoff
| "allowGrowthyieldSlopeNStderrAwayFromZero" =>
  some ps.allowGrowthyieldSlopeNStderrAwayFromZero
| "logOdCutoff" => some ps.logOdCutoff
| "lagAtLogOdEquals" => some ps.lagAtLogOdEquals
| "slidingWindowSize" => some ps.slidingWindowSize
| "hdCorrectionLinear" => some ps.hdCorrectionLinear
| "hdCorrectionQuadratic" => some ps.hdCorrectionQuadratic
| "hdCorrectionCubic" => some ps.hdCorrectionCubic
| "smoothingK" => some ps.smoothingK
| "smoothingS" => some ps.smoothingS
| _ => none

/-- `Plate._getDefaultParameter`: value of the plate default, raising (here
`Except.error`) for an unknown parameter name. -/
def getDefaultParameter (plate : PlateParams α) (par : String) :
    Except String (Option α) :=
  match plate.lookup par with
  | none => .error "unknown parameter"
  | some v => .ok v

/-- `Replicate.getParameter` evaluated on a replicate group (whose
`_replicateGroupParent` is `None`): the explicit override if set, otherwise
the plate default; pure-plate parameters always come from the plate. -/
def groupGetParameter (plate : PlateParams α) (g : ReplicateParams α)
    (par : String) : Except String (Option α) :=
  if isPurePlateParameter par then getDefaultParameter plate par
  else
    match g.lookup par with
    | none => .error "unknown parameter"
    | some v =>
      if v.isSome then .ok v
      else getDefaultParameter plate par

/-- `Replicate.getParameter` evaluated on a single well whose
`_replicateGroupParent` is `parent`: the explicit override if set, otherwise
the parent replicate group's resolved value when that is set, otherwise the
plate default; pure-plate parameters always come from the plate. -/
def wellGetParameter (plate : PlateParams α) (parent : Option (ReplicateParams α))
    (w : ReplicateParams α) (par : String) : Except String (Option α) :=
  if isPurePlateParameter par then getDefaultParameter plate par
  else
    match w.lookup par with
    | none => .error "unknown parameter"
    | some v =>
      if v.isSome then .ok v
      else
        match parent with
        | some g =>
          match groupGetParameter plate g par with
          | .ok pv => if pv.isSome then .ok pv else getDefaultParameter plate par
          | .error e => .error e
        | none => getDefaultParameter plate par

/-- The `Replicate._memoisedDontClear` table: for each parameter name the set
of memoised quantities that survive an update of that parameter. -/
def memoisedDontClear (par : String) : Option (List String) :=
  match par with
  | "allowGrowthyieldSlopeNStderrAwayFromZero" =>
    some ["derivative", "expFitsMu", "expFitsOd0Mu", "logOd", "logOdSmoothed",
          "od", "odVar", "rawOd", "rawOdVar", "smoothedOd", "smoothedOdDerivative"]
  | "allowMaxGrowthrateAtLowerCutoff" =>
    some ["derivative", "expFitsMu", "expFitsOd0Mu", "logOd", "logOdSmoothed",
          "od", "odVar", "rawOd", "rawOdVar", "smoothedOd", "smoothedOdDerivative"]
  | "backgroundIndex" => some ["rawOd", "rawOdVar"]
  | "hdCorrectionCubic" => some ["rawOd", "rawOdVar"]
  | "hdCorrectionLinear" => some ["rawOd", "rawOdVar"]
  | "hdCorrectionQuadratic" => some ["rawOd", "rawOdVar"]
  | "lagAtLogOdEquals" =>
    some ["derivative", "expFitsMu", "expFitsOd0Mu", "logOd", "logOdSmoothed",
          "od", "odVar", "rawOd", "rawOdVar", "smoothedOd", "smoothedOdDerivative"]
  | "logOdCutoff" =>
    some ["derivative", "expFitsMu", "expFitsOd0Mu", "logOd", "logOdSmoothed",
          "od", "odVar", "rawOd", "rawOdVar", "smoothedOd", "smoothedOdDerivative"]
  | "maxGrowthLowerTimeCutoff" =>
    some ["derivative", "expFitsMu", "expFitsOd0Mu", "logOd", "logOdSmoothed",
          "od", "odVar", "rawOd", "rawOdVar", "smoothedOd", "smoothedOdDerivative"]
  | "maxGrowthUpperTimeCutoff" =>
    some ["derivative", "expFitsMu", "expFitsOd0Mu", "logOd", "logOdSmoothed",
          "od", "odVar", "rawOd", "rawOdVar", "smoothedOd", "smoothedOdDerivative"]
  | "slidingWindowSize" =>
    some ["derivative", "logOd", "logOdSmoothed", "od", "odVar", "rawOd",
          "rawOdVar", "smoothedOd", "smoothedOdDerivative"]
  | "smoothingK" =>
    some ["derivative", "expFitsMu", "expFitsOd0Mu", "logOd", "od", "odVar",
          "rawOd", "rawOdVar"]
  | "smoothingS" =>
    some ["derivative", "expFitsMu", "expFitsOd0Mu", "logOd", "od", "odVar",
          "rawOd", "rawOdVar"]
  | _ => none

/-- `Replicate._clearMemoised`: with no parameter name, or with a name that
is not listed in `_memoisedDontClear`, the whole memoisation dict is
cleared; otherwise every memoised quantity that is not in the parameter's
exempt set is dropped.  The memoisation dict is modelled as an association
list from quantity name to cached value. -/
def clearMemoised (mem : List (String × β)) (par : Option String) :
    List (String × β) :=
  match par with
  | none => []
  | some p =>
    match memoisedDontClear p with
    | none => []
    | some keep => mem.filter (fun kv => decide (kv.1 ∈ keep))

/-- Pointwise (column-wise) arithmetic mean across the rows of the raw-OD
matrix built by `Replicate._calculateRawOd` (`mat.mean(axis=0)`), where `m`
is the number of timepoints (`len(parentPlate._rawOd[0])`). -/
def columnMean (rows : List (List ℚ)) (m : Nat) : List ℚ :=
  (List.range m).map (fun j =>
    ((rows.map (fun r => r.getD j 0)).sum) / (rows.length : ℚ))

/-- Pointwise sample variance (`mat.var(axis=0,ddof=1)`) across the rows of
the raw-OD matrix. -/
def columnVarDdof1 (rows : List (List ℚ)) (m : Nat) : List ℚ :=
  (List.range m).map (fun j =>
    let col := rows.map (fun r => r.getD j 0)
    let mean := col.sum / (col.length : ℚ)
    ((col.map (fun x => (x - mean) ^ 2)).sum) / ((col.length : ℚ) - 1))

/-- `Replicate._calculateRawOd`: the raw optical density is the mean of the
active child wells' raw curves (defined only when at least one child is
active) and its variance is the sample variance with `ddof=1` (defined only
when at least two children are active).  `plateRaw` is the plate's
`_rawOd` array, `wellIndices` the replicate's global child indices and
`active` its local active indices; the structural checks of
`_checkActiveWellIndices` (which raises on out-of-range, duplicate, or
data-less active indices) are assumed to have passed. -/
def calculateRawOd (plateRaw : List (Option (List ℚ))) (wellIndices : List Nat)
    (active : List Nat) : Option (List ℚ) × Option (List ℚ) :=
  let m := ((plateRaw.getD 0 none).getD []).length
  let rows := active.map (fun li =>
    (plateRaw.getD (wellIndices.getD li 0) none).getD [])
  let rawOd := if 0 < active.length then some (columnMean rows m) else none
  let rawOdVar := if 1 < active.length then some (columnVarDdof1 rows m) else none
  (rawOd, rawOdVar)

/-- Input state of `Replicate._calculateOd`: the entity's memoised raw OD and
raw-OD variance, the background replicate (outer `none` models
`self.background is None`; the inner value is the background's `rawOd()`),
the background's raw-OD variance, and the three resolved high-density
correction coefficients. -/
structure OdCorrectionInput where
  rawOd : Option (List ℚ)
  rawOdVar : Option (List ℚ)
  background : Option (Option (List ℚ))
  backgroundRawOdVar : Option (List ℚ)
  hdCorrectionLinear : Option ℚ
  hdCorrectionQuadratic : Option ℚ
  hdCorrectionCubic : Option ℚ

/-- `Replicate._calculateOd`: od and odVar stay undefined when the raw OD,
the background, or any of the three correction coefficients is unset;
otherwise `od = a1*d + a2*d^2 + a3*d^3` pointwise with
`d = rawOd - background.rawOd`, and `odVar` by first-order propagation of
the summed raw variances when both variances are defined.  A background
whose own `rawOd()` is undefined would make the source's subtraction raise
a `TypeError`; this is the `Except.error` case. -/
def calculateOd (inp : OdCorrectionInput) :
    Except Unit (Option (List ℚ) × Option (List ℚ)) :=
  match inp.rawOd with
  | none => .ok (none, none)
  | some raw =>
    match inp.background with
    | none => .ok (none, none)
    | some bgRawOd =>
      match inp.hdCorrectionLinear, inp.hdCorrectionQuadratic, inp.hdCorrectionCubic with
      | some a1, some a2, some a3 =>
        match bgRawOd with
        | none => .error ()
        | some bg =>
          let rawdiff := List.zipWith (fun x y => x - y) raw bg
          let od := rawdiff.map (fun d => a1 * d + a2 * d ^ 2 + a3 * d ^ 3)
          let odVar :=
            match inp.rawOdVar, inp.backgroundRawOdVar with
            | some rv, some bv =>
              let rawdiffVar := List.zipWith (fun x y => x + y) rv bv
              some (List.zipWith
                (fun d v => (a1 + 2 * a2 * d + 3 * a3 * d ^ 2) ^ 2 * v)
                rawdiff rawdiffVar)
            | _, _ => none
          .ok (some od, odVar)
      | _, _, _ => .ok (none, none)

/-- Outcome of the `UnivariateSpline` fit performed inside
`Replicate.smoothedOd` / `Replicate.logOdSmoothed`: a successful fit
evaluated on the time axis, a fit that only emitted a numerical warning, or
a fit that raised an exception. -/
inductive FitOutcome where
| success (values : List ℚ)
| warned
| raised
deriving DecidableEq

/-- Result of running one of the smoothing accessors: either a returned
value together with the new memoisation entry for its key (`none` when the
key was not written), or a propagated exception. -/
inductive SmoothRun where
| returns (result : Option (List ℚ)) (memoEntry : Option (Option (List ℚ)))
| raises
deriving DecidableEq

/-- `Replicate.smoothedOd`: returns the memoised value if present; returns
(unmemoised) `None` when the od is undefined; otherwise memoises `None`,
runs the spline fit catching only *warnings* (a warning prints a diagnostic
and leaves the memoised `None` in place), and stores the fitted curve on
success.  There is no `try`/`except` around the fit, so an exception
raised by the fit propagates to the caller with the memoised `None` left
behind. -/
def smoothedOd (od : Option (List ℚ)) (memo : Option (Option (List ℚ)))
    (fit : FitOutcome) : SmoothRun :=
  match memo with
  | some v => .returns v (some v)
  | none =>
    match od with
    | none => .returns none none
    | some _ =>
      match fit with
      | .success ys => .returns (some ys) (some (some ys))
      | .warned => .returns none (some none)
      | .raised => .raises

/-- `Replicate.logOdSmoothed`: like `smoothedOd` but the whole fit is inside
a `try`/bare-`except`, so an exception also only prints a diagnostic and
returns the memoised `None`. -/
def logOdSmoothed (memo : Option (Option (List ℚ))) (fit : FitOutcome) :
    SmoothRun :=
  match memo with
  | some v => .returns v (some v)
  | none =>
    match fit with
    | .success ys => .returns (some ys) (some (some ys))
    | .warned => .returns none (some none)
    | .raised => .returns none (some none)

/-- Fatal rejection reasons of `Replicate._maxGrowthrate` (single-well path),
one per `shortmsg` emitted with `Severity.failed`. -/
inductive GrowthFail where
| noMu
| noMuWithinLimits
| mumaxLe0
| od0maxLe0
| lagGtValAtMumax
| maxAtFirstNonNanRemoved
| maxAtLowerCutoffRemoved
| maxAtLogOdCutoffRemoved
| maxAtEndNoNeighbor
| maxAtUpperCutoffRemoved
| maxAtLogOdCutoffRightRemoved
deriving DecidableEq

/-- The three tolerated "maximum at a lower cutoff" conditions (the `key`
chosen by the first elif chain of `_maxGrowthrate`). -/
inductive GrowthWarn where
| maxAtFirstNonNan
| maxAtLowerCutoff
| maxAtLogOdCutoff
deriving DecidableEq

/-- Fatal reason used when a tolerated lower-cutoff condition is rejected
because `allowMaxGrowthrateAtLowerCutoff` is not set. -/
def GrowthWarn.toFail : GrowthWarn → GrowthFail
| .maxAtFirstNonNan => .maxAtFirstNonNanRemoved
| .maxAtLowerCutoff => .maxAtLowerCutoffRemoved
| .maxAtLogOdCutoff => .maxAtLogOdCutoffRemoved

/-- Accepted result of the single-well `_maxGrowthrate`: the maximal growth
rate, the implied OD at time 0, the time of the maximum, the lag (already
`none` when the lag was rejected as negative, recorded in `lagRejected`),
and the warning status attached when the maximum was tolerated at a lower
cutoff. -/
structure GrowthOk where
  mumax : ℚ
  od0max : ℚ
  maxt : ℚ
  lag : Option ℚ
  warn : Option GrowthWarn
  lagRejected : Bool
deriving DecidableEq

/-- Outcome of the single-well `_maxGrowthrate`: either the all-`None`
result with a `Severity.failed` status, or an accepted result. -/
inductive GrowthOutcome where
| fatal (f : GrowthFail)
| ok (r : GrowthOk)
deriving DecidableEq

/-- Whether the outcome is the all-`None` fatal result. -/
def GrowthOutcome.isFatal : GrowthOutcome → Bool
| .fatal _ => true
| .ok _ => false

/-- Input of the single-well selection procedure of `_maxGrowthrate`, after
the method-specific array preparation: `mu` is the per-index growth rate
(the outer `none` models a `None` array, an inner `none` a NaN entry), `t`
the correspondingly sliced time axis, `texp` the time axis used inside the
`exp` factor of the implied OD at t=0 (`time[:-slidingWindowSize]` for the
exponential-fit method, `t` itself for the smoothed log-derivative method),
`logod` the correspondingly sliced log-OD, `od0` the per-index initial OD,
and the resolved parameters. -/
structure GrowthSelInput where
  mu : Option (List (Option ℚ))
  t : List ℚ
  texp : List ℚ
  logod : Option (List (Option ℚ))
  od0 : List ℚ
  logOdCutoff : Option ℚ
  maxGrowthLowerTimeCutoff : Option ℚ
  maxGrowthUpperTimeCutoff : Option ℚ
  lagAtLogOdEquals : Option ℚ
  allowMaxGrowthrateAtLowerCutoff : Bool

/-- Number of data points (`len(t)`). -/
def mgN (inp : GrowthSelInput) : Nat := inp.t.length

/-- `fidcs`: `numpy.isfinite(mu)`, all-false when `mu` is `None`. -/
def mgFidcs (inp : GrowthSelInput) (i : Nat) : Bool :=
  match inp.mu with
  | none => false
  | some l => (l.getD i none).isSome

/-- Value of `mu` at an index (0 as the junk value behind a NaN entry; only
read at indices where `mgFidcs` holds). -/
def mgMuVal (inp : GrowthSelInput) (i : Nat) : ℚ :=
  ((inp.mu.getD []).getD i none).getD 0

/-- Whether the log-OD cutoff mask `cidcs` exists: the source computes it
only when both `logOdCutoff()` and `logOd()` are not `None` (whenever `mu`
has finite entries the log-OD array is defined, so the boundary tests that
guard only on `logOdCutoff()` coincide with this condition on every
reachable state). -/
def mgCutoffUsed (inp : GrowthSelInput) : Bool :=
  inp.logOdCutoff.isSome && inp.logod.isSome

/-- `cidcs`: `notNanAndGreaterEqual(logod, logOdCutoff)`; `true` when the
cutoff mask is not in use. -/
def mgCOk (inp : GrowthSelInput) (i : Nat) : Bool :=
  match inp.logOdCutoff, inp.logod with
  | some c, some l => notNanAndGreaterEqual (l.getD i none) c
  | _, _ => true

/-- `lidcs`: `t >= maxGrowthLowerTimeCutoff`; `true` when no lower cutoff is
set. -/
def mgLOk (inp : GrowthSelInput) (i : Nat) : Bool :=
  match inp.maxGrowthLowerTimeCutoff with
  | some lo => decide (lo ≤ inp.t.getD i 0)
  | none => true

/-- `uidcs`: `t <= maxGrowthUpperTimeCutoff`; `true` when no upper cutoff is
set. -/
def mgUOk (inp : GrowthSelInput) (i : Nat) : Bool :=
  match inp.maxGrowthUpperTimeCutoff with
  | some up => decide (inp.t.getD i 0 ≤ up)
  | none => true

/-- The mask after the finite-`mu` and log-OD-cutoff stages. -/
def mgIdcs1 (inp : GrowthSelInput) (i : Nat) : Bool :=
  mgFidcs inp i && mgCOk inp i

/-- The mask after additionally applying both time cutoffs. -/
def mgIdcs2 (inp : GrowthSelInput) (i : Nat) : Bool :=
  mgIdcs1 inp i && mgLOk inp i && mgUOk inp i

/-- Indices surviving the first masking stage. -/
def mgValid1 (inp : GrowthSelInput) : List Nat :=
  (List.range (mgN inp)).filter (mgIdcs1 inp)

/-- Indices surviving all masking stages. -/
def mgValid2 (inp : GrowthSelInput) : List Nat :=
  (List.range (mgN inp)).filter (mgIdcs2 inp)

/-- `numpy.argmax` over the compressed array, returned as the original
index: the first listed index attaining the maximal value of `f`. -/
def argmaxIdx (f : Nat → ℚ) : List Nat → Nat
| [] => 0
| i :: rest => rest.foldl (fun best j => if f best < f j then j else best) i

/-- `globalmaxidx`: the index of the (first) maximal masked growth rate. -/
def mgSelIdx (inp : GrowthSelInput) : Nat :=
  argmaxIdx (mgMuVal inp) (mgValid2 inp)

/-- `mumax`. -/
def mgMumax (inp : GrowthSelInput) : ℚ := mgMuVal inp (mgSelIdx inp)

/-- `maxt`. -/
def mgMaxt (inp : GrowthSelInput) : ℚ := inp.t.getD (mgSelIdx inp) 0

/-- `od0max = od0[maxidx] * exp(-mumax * texp[maxidx])`: the implied OD at
time 0, with `exp` passed in as `expf`. -/
def mgOd0max (expf : ℚ → ℚ) (inp : GrowthSelInput) : ℚ :=
  inp.od0.getD (mgSelIdx inp) 0 *
    expf (-(mgMumax inp * inp.texp.getD (mgSelIdx inp) 0))

/-- The rejection test `mumax*maxt + log(od0max) < lagAtLogOdEquals` (the OD
at the lag reference exceeds the OD at the time of maximal growth), with
`log` passed in as `logf`. -/
def mgLagCond (expf logf : ℚ → ℚ) (inp : GrowthSelInput) : Bool :=
  match inp.lagAtLogOdEquals with
  | some lval => decide (mgMumax inp * mgMaxt inp + logf (mgOd0max expf inp) < lval)
  | none => false

/-- The elif chain classifying a maximum located at a "lower" cutoff: no
defined growth rate to the left (or first index), left neighbour below the
lower time cutoff, or left neighbour below the log-OD cutoff. -/
def mgLeftKey (inp : GrowthSelInput) : Option GrowthWarn :=
  let gm := mgSelIdx inp
  if gm = 0 || !(mgFidcs inp (gm - 1)) then some .maxAtFirstNonNan
  else if inp.maxGrowthLowerTimeCutoff.isSome && !(mgLOk inp (gm - 1)) then
    some .maxAtLowerCutoff
  else if mgCutoffUsed inp && !(mgCOk inp (gm - 1)) then some .maxAtLogOdCutoff
  else none

/-- The elif chain rejecting a maximum located at an "upper" cutoff: no
defined growth rate to the right (or last index), right neighbour above the
upper time cutoff, or right neighbour below the log-OD cutoff — always
fatal. -/
def mgRightFatal (inp : GrowthSelInput) : Option GrowthFail :=
  let gm := mgSelIdx inp
  if gm = mgN inp - 1 || !(mgFidcs inp (gm + 1)) then some .maxAtEndNoNeighbor
  else if inp.maxGrowthUpperTimeCutoff.isSome && !(mgUOk inp (gm + 1)) then
    some .maxAtUpperCutoffRemoved
  else if mgCutoffUsed inp && !(mgCOk inp (gm + 1)) then
    some .maxAtLogOdCutoffRightRemoved
  else none

/-- Continuation of `_maxGrowthrate` after the lower-cutoff handling: the
upper-cutoff chain (always fatal) and then the lag computation, where a
negative lag is rejected (set to `None` with a failed lag status) without
discarding the growth-rate values. -/
def mgAfterLeft (expf logf : ℚ → ℚ) (inp : GrowthSelInput)
    (warn : Option GrowthWarn) : GrowthOutcome :=
  match mgRightFatal inp with
  | some f => .fatal f
  | none =>
    match inp.lagAtLogOdEquals with
    | none =>
      .ok ⟨mgMumax inp, mgOd0max expf inp, mgMaxt inp, none, warn, false⟩
    | some lval =>
      if (lval - logf (mgOd0max expf inp)) / mgMumax inp < 0 then
        .ok ⟨mgMumax inp, mgOd0max expf inp, mgMaxt inp, none, warn, true⟩
      else
        .ok ⟨mgMumax inp, mgOd0max expf inp, mgMaxt inp,
          some ((lval - logf (mgOd0max expf inp)) / mgMumax inp), warn, false⟩

/-- The single-well selection procedure of `Replicate._maxGrowthrate`: mask,
pick the maximal growth rate, apply the rejection rules in source order,
and compute the lag. -/
def maxGrowthrateSel (expf logf : ℚ → ℚ) (inp : GrowthSelInput) : GrowthOutcome :=
  if mgValid1 inp = [] then .fatal .noMu
  else if mgValid2 inp = [] then .fatal .noMuWithinLimits
  else if mgMumax inp ≤ 0 then .fatal .mumaxLe0
  else if mgOd0max expf inp ≤ 0 then .fatal .od0maxLe0
  else if mgLagCond expf logf inp then .fatal .lagGtValAtMumax
  else
    match mgLeftKey inp with
    | some k =>
      if !inp.allowMaxGrowthrateAtLowerCutoff then .fatal k.toFail
      else mgAfterLeft expf logf inp (some k)
    | none => mgAfterLeft expf logf inp none

/-- Projection of one active child well's `_maxGrowthrate` result as consumed
by the replicate-group path: `vals = (mumax, od0max, maxt)` is `none`
exactly when the child returned the all-`None` fatal result (stored as NaN
in the group's arrays), `lag` is the child's lag (also `none` on fatal
children), and `status` the child's returned status. -/
structure ChildGrowthProj where
  vals : Option (ℚ × ℚ × ℚ)
  lag : Option ℚ
  status : Option StatusMessage

/-- Projection of a single-well outcome into the group arrays. -/
def GrowthOutcome.toProj : GrowthOutcome → Option (ℚ × ℚ × ℚ) × Option ℚ
| .fatal _ => (none, none)
| .ok r => (some (r.mumax, r.od0max, r.maxt), r.lag)

/-- Group-level result of `Replicate._maxGrowthrate`: either the all-`None`
result carrying the merged statuses of every child, or the masked means and
`ddof=1` variances of the children's values, with the statuses of the
contributing children. -/
inductive GroupGrowthOutcome where
| undef (allstatuses : StatusMessage)
| ok (mumaxmean mumaxvar od0maxmean od0maxvar maxtmean maxtvar lagmean lagvar : Option ℚ)
    (statuses : StatusMessage)

/-- Whether the group outcome is the all-`None` result. -/
def GroupGrowthOutcome.isUndef : GroupGrowthOutcome → Bool
| .undef _ => true
| .ok _ _ _ _ _ _ _ _ _ => false

/-- The replicate-group path of `Replicate._maxGrowthrate`: collect each
active child's values (NaN for fatally rejected children), return the
all-`None` result with all statuses when every child is NaN, and otherwise
average `mumax`, `od0max`, `maxt` (masked by the NaN `mumax` entries) and
`lag` (masked by its own NaN entries) via `maskedArrayToMeanVar` with
`ddof=1`.  `mt` is the method text used inside the status keys. -/
def groupMaxGrowthrate (mt : String) (children : List ChildGrowthProj) :
    GroupGrowthOutcome :=
  let muArr := children.map (fun c => c.vals.map (fun v => v.1))
  let od0Arr := children.map (fun c => c.vals.map (fun v => v.2.1))
  let maxtArr := children.map (fun c => c.vals.map (fun v => v.2.2))
  let lagArr := children.map (fun c => c.lag)
  let gKey := "max. growth rate (" ++ mt ++ "):"
  let lagKey := "lag (" ++ mt ++ "):"
  if ∀ c ∈ children, c.vals = none then
    .undef (.slist (children.filterMap (fun c => c.status)))
  else
    let mumaxMV := maskedArrayToMeanVar muArr 1
    let od0maxMV := maskedArrayToMeanVar od0Arr 1
    let maxtMV := maskedArrayToMeanVar maxtArr 1
    let lagMV := maskedArrayToMeanVar lagArr 1
    let statuses0 :=
      ((children.filter (fun c => c.vals.isSome)).filterMap (fun c => c.status)).flatMap
        (fun st => st.statusesWithKey gKey)
    let alllagstatuses :=
      (children.filterMap (fun c => c.status)).flatMap
        (fun st => st.statusesWithKey lagKey)
    let lagstatuses :=
      ((children.filter (fun c => c.lag.isSome)).filterMap (fun c => c.status)).flatMap
        (fun st => st.statusesWithKey lagKey)
    let statuses := StatusMessage.slist (statuses0 ++
      [StatusMessage.slist (if lagMV.1 = none then alllagstatuses else lagstatuses)])
    .ok mumaxMV.1 mumaxMV.2 od0maxMV.1 od0maxMV.2 maxtMV.1 maxtMV.2
      lagMV.1 lagMV.2 statuses

/-- Input of the single-well part of `Replicate._growthyield` after
`odSlopemaxIntercept` succeeded: the od curve used for the window statistics
(`smoothedOd` when called from `growthyield`), the time axis, the resolved
sliding-window size, the time index and OD value of the maximal linear
slope, the window regression results of `_windowSlope(fromidx=timemaxIdx)`
(slope and its standard error per window, produced by
`scipy.stats.linregress` and therefore kept as inputs here), and the
resolved `allowGrowthyieldSlopeNStderrAwayFromZero`. -/
structure YieldInput where
  od : List ℚ
  time : List ℚ
  slidingWindowSize : Nat
  timemaxIdx : Nat
  odAtMaxLinSlope : ℚ
  slope : List ℚ
  slopeStdErr : List ℚ
  allowNStderrDeviations : Nat

/-- Number of sliding windows scanned (`toidx - fromidx` with
`toidx = od.size - slidingWindowSize` and `fromidx = timemaxIdx`). -/
def ylNumWindows (inp : YieldInput) : Nat :=
  inp.od.length - inp.slidingWindowSize - inp.timemaxIdx

/-- `_windowMeanVar`: the mean of the window of `slidingWindowSize` points
starting at `timemaxIdx + j`. -/
def ylMean (inp : YieldInput) (j : Nat) : ℚ :=
  (((inp.od.drop (inp.timemaxIdx + j)).take inp.slidingWindowSize).sum) /
    (inp.slidingWindowSize : ℚ)

/-- The window indices accepted at slack level `n`: windowed mean above the
OD at maximal linear slope, and `slope ± n·stderr` straddling zero. -/
def ylValidIdcs (inp : YieldInput) (n : Nat) : List Nat :=
  (List.range (ylNumWindows inp)).filter (fun j =>
    decide (inp.odAtMaxLinSlope < ylMean inp j) &&
    decide (0 ≤ inp.slope.getD j 0 + (n : ℚ) * inp.slopeStdErr.getD j 0) &&
    decide (inp.slope.getD j 0 - (n : ℚ) * inp.slopeStdErr.getD j 0 < 0))

/-- The slack level actually used: `n=1` first, then the while loop relaxing
`n` from 2 up to `allowNStderrDeviations` until some window qualifies. -/
def firstQualifyingN (inp : YieldInput) : Option Nat :=
  if ylValidIdcs inp 1 = [] then
    (List.range' 2 (inp.allowNStderrDeviations - 1)).find?
      (fun k => !(ylValidIdcs inp k).isEmpty)
  else some 1

/-- Fatal rejection reasons of the single-well `_growthyield` scan. -/
inductive YieldFail where
| noValidIndices
| negativeYield
deriving DecidableEq

/-- Outcome of the single-well `_growthyield` scan: fatal with an all-`None`
result, or the yield, its time, and the slack level used (a warning status
is attached exactly when that level is at least 2). -/
inductive YieldOutcome where
| fatal (f : YieldFail)
| ok (growthyield tgrowthyield : ℚ) (nUsed : Nat)
deriving DecidableEq

/-- Whether the yield outcome is the all-`None` fatal result. -/
def YieldOutcome.isFatal : YieldOutcome → Bool
| .fatal _ => true
| .ok _ _ _ => false

/-- Continuation of the yield scan once the slack level `k` is fixed: pick
the qualifying window with the largest windowed mean, reject a negative
yield, and read the yield time from `time[tmb+timemaxIdx:-tmt]` at the
chosen window index. -/
def growthyieldAt (inp : YieldInput) (k : Nat) : YieldOutcome :=
  if ylMean inp (argmaxIdx (ylMean inp) (ylValidIdcs inp k)) < 0 then
    .fatal .negativeYield
  else
    .ok (ylMean inp (argmaxIdx (ylMean inp) (ylValidIdcs inp k)))
      (inp.time.getD (inp.slidingWindowSize / 2 + inp.timemaxIdx
        + argmaxIdx (ylMean inp) (ylValidIdcs inp k)) 0) k

/-- The single-well window scan of `Replicate._growthyield`: find the first
slack level with a qualifying window and continue with `growthyieldAt`;
fatal with `noValidIndices` when no window ever qualifies. -/
def growthyieldCore (inp : YieldInput) : YieldOutcome :=
  match firstQualifyingN inp with
  | none => .fatal .noValidIndices
  | some k => growthyieldAt inp k

/-- Projection of one active child well's `_growthyield` result as consumed
by the replicate-group path: `vals = (growthyield, tgrowthyield)` is `none`
exactly when the child scan returned the all-`None` fatal result (stored as
NaN in the group's arrays), and `status` is the child's returned status
(`None` for a child that succeeded at slack level 1). -/
structure ChildYieldProj where
  vals : Option (ℚ × ℚ)
  status : Option StatusMessage

/-- Projection of a single-well yield outcome into the group arrays. -/
def YieldOutcome.toProj : YieldOutcome → Option (ℚ × ℚ)
| .fatal _ => none
| .ok gy tgy _ => some (gy, tgy)

/-- Group-level result of `Replicate._growthyield`: either the all-`None`
result carrying the children's statuses, or the masked means and `ddof=1`
variances of the children's yields and yield times, with the statuses of
the children whose yield is defined. -/
inductive GroupYieldOutcome where
| undef (allstatuses : StatusMessage)
| ok (growthyieldmean growthyieldvar tgrowthyieldmean tgrowthyieldvar : Option ℚ)
    (statuses : StatusMessage)

/-- The replicate-group path of `Replicate._growthyield`: collect each
active child's yield and yield time (NaN for fatally rejected children),
return the all-`None` result with all statuses when every child is NaN,
and otherwise average both quantities, masked by the NaN `growthyield`
entries, via `maskedArrayToMeanVar` with `ddof=1`.  The source appends
even a Python `None` child status to `allstatuses` unguarded; those
entries carry no information and are modelled by dropping them. -/
def groupGrowthyield (children : List ChildYieldProj) : GroupYieldOutcome :=
  if ∀ c ∈ children, c.vals = none then
    .undef (.slist (children.filterMap (fun c => c.status)))
  else
    let gyMV := maskedArrayToMeanVar (children.map (fun c => c.vals.map (fun v => v.1))) 1
    let tgyMV := maskedArrayToMeanVar (children.map (fun c => c.vals.map (fun v => v.2))) 1
    let statuses := StatusMessage.slist
      ((children.filter (fun c => c.vals.isSome)).filterMap (fun c => c.status))
    .ok gyMV.1 gyMV.2 tgyMV.1 tgyMV.2 statuses

/-- Projection of one day's `Replicate.maxGrowthrate()` result as consumed by
`ClsReplicate.viability`: the growth rate with its variance (`none` when the
day's growth rate is undefined) and the lag with its variance (`none` when
the lag is undefined; a defined variance always accompanies a defined
value, as produced by `maskedArrayToMeanVar`). -/
structure DayGrowth where
  mu : Option (ℚ × Option ℚ)
  lag : Option (ℚ × Option ℚ)

/-- `Replicate.growthrateToDoublingTime`: `doublingtime = ln2/mu` when the
growth rate is defined, and its variance `ln2^2/mu^4 * mu_var` when the
variance is also defined. -/
def growthrateToDoublingTime (ln2 : ℚ) (mu : Option (ℚ × Option ℚ)) :
    Option ℚ × Option ℚ :=
  match mu with
  | none => (none, none)
  | some (m, mvar) =>
    (some (ln2 / m), mvar.map (fun v => ln2 ^ 2 / m ^ 4 * v))

/-- Result of the single-well `ClsReplicate.viability`: `crash` models the
unguarded attribute access on `_odReplicates[0]` when there is no first
replicate; `noInitialLag` the all-`None` return with the
`viability:noInitialLag` failed status; otherwise the day axis and the
viability and viability-variance arrays (NaN entries as `none`). -/
inductive ViabilityOut where
| crash
| noInitialLag
| series (days : List ℚ) (viability : List (Option ℚ)) (viabilityVar : List (Option ℚ))

/-- The status attached to the `noInitialLag` return of
`ClsReplicate.viability` (`severity=Severity.failed`). -/
def noInitialLagStatus : StatusMessage :=
  .single "viability:noInitialLag" "viability:noInitialLag"
    "lag could not be extract for first timepoint" .failed 0

/-- Viability of one day: the first component is the viability, the second
its variance.  `rep = none` models a missing `Replicate` for that day
(both entries NaN).  The variance is written by the trailing if/else of the
source loop: it holds the propagated value only when the day-0 lag
variance, the day's lag variance and the doubling-time variance are all
defined, and is NaN otherwise — including in the no-growth branch, whose
earlier `viabilityvar[tcidx]=0.` assignment it overwrites. -/
def viabilityDay (pow2 : ℚ → ℚ) (ln2 : ℚ) (lag0 : ℚ) (lag0var : Option ℚ)
    (rep : Option DayGrowth) : Option ℚ × Option ℚ :=
  match rep with
  | none => (none, none)
  | some r =>
    let dtPair := growthrateToDoublingTime ln2 r.mu
    let v : Option ℚ :=
      match r.lag, dtPair.1 with
      | some (lag, _), some d => some (pow2 (-((lag - lag0) / d)))
      | _, none => some 0
      | none, some _ => none
    let vvar : Option ℚ :=
      match lag0var, r.lag, dtPair.2 with
      | some l0v, some (lag, some lagvar), some dvar =>
        let d := (dtPair.1).getD 0
        let deltaT := lag - lag0
        let deltaTvar := lagvar + l0v
        some ((ln2 / d * pow2 (-(deltaT / d))) ^ 2 * dvar
              + (ln2 * deltaT * (1 / d ^ 2) * pow2 (-(deltaT / d))) ^ 2 * deltaTvar)
      | _, _, _ => none
    (v, vvar)

/-- The single-well path of `ClsReplicate.viability`: undefined (with the
failed `viability:noInitialLag` status) when the lag of the first day's
replicate is undefined, otherwise the per-day viability ratios. -/
def viabilitySingle (pow2 : ℚ → ℚ) (ln2 : ℚ) (days : List ℚ)
    (reps : List (Option DayGrowth)) : ViabilityOut :=
  match reps.head? with
  | none => .crash
  | some none => .crash
  | some (some day0) =>
    match day0.lag with
    | none => .noInitialLag
    | some (lag0, lag0var) =>
      let pairs := reps.map (viabilityDay pow2 ln2 lag0 lag0var)
      .series days (pairs.map (fun p => p.1)) (pairs.map (fun p => p.2))

/-- `numpy.trapz(y, x)`: the trapezoidal integral, with NaN entries (`none`)
propagating into a NaN result. -/
def trapz (y : List (Option ℚ)) (x : List ℚ) : Option ℚ :=
  (List.range (y.length - 1)).foldl (fun acc i =>
    match acc, y.getD i none, y.getD (i + 1) none with
    | some a, some y0, some y1 =>
      some (a + (x.getD (i + 1) 0 - x.getD i 0) * (y0 + y1) / 2)
    | _, _, _ => none) (some 0)

/-- Result of the single-well `ClsReplicate.survivalIntegral`: a crash
propagated from `viability`, the undefined (`None`) integral, or the
integral's value (`none` inside `value` models a NaN float). -/
inductive SurvivalOut where
| crash
| undef
| value (si : Option ℚ)

/-- The single-well path of `ClsReplicate.survivalIntegral`: the trapezoidal
integral of the viability series over the day axis, undefined whenever the
viability series is undefined. -/
def survivalIntegralSingle (pow2 : ℚ → ℚ) (ln2 : ℚ) (days : List ℚ)
    (reps : List (Option DayGrowth)) : SurvivalOut :=
  match viabilitySingle pow2 ln2 days reps with
  | .crash => .crash
  | .noInitialLag => .undef
  | .series ds v _ => .value (trapz v ds)

/-- The `od` component of `Replicate._calculateOd`, i.e. the memoised value
returned by `Replicate.od()`. -/
def odComponent (inp : OdCorrectionInput) : Except Unit (Option (List ℚ)) :=
  (calculateOd inp).map Prod.fst

/-- The spec's masked mean and `ddof=1` sample variance over the defined
values `vs` of an aggregated quantity: the plain mean, and the sample
variance, undefined when there are fewer than two defined values. -/
def meanVarDdof1 (vs : List ℚ) : Option ℚ × Option ℚ :=
  (some (vs.sum / (vs.length : ℚ)),
   if vs.length ≤ 1 then none
   else some ((vs.map (fun x => (x - vs.sum / (vs.length : ℚ)) ^ 2)).sum
     / ((vs.length : ℚ) - 1)))

/-- Concrete input refuting the claim's "first/last valid index is always
fatal": two timepoints, finite growth rates `[2, 1]` with the maximum at
index 0, no cutoffs, `allowMaxGrowthrateAtLowerCutoff` set. -/
def c1CexA : GrowthSelInput :=
  ⟨some [some 2, some 1], [0, 1], [0, 1], none, [1, 1],
   none, none, none, none, true⟩

/-- Concrete input refuting the claim's "upper time cutoff is fatal unless
the flag is set": growth rates `[1, 2, 1]`, upper time cutoff `1` so that
the maximum (index 1) sits at the upper cutoff, with the flag set. -/
def c1CexB : GrowthSelInput :=
  ⟨some [some 1, some 2, some 1], [0, 1, 2], [0, 1, 2], none, [1, 1, 1],
   none, none, some 1, none, true⟩

/-- Concrete yield input for the witness: two od points, window size 1, a
window whose mean exceeds the OD at maximal slope and whose slope within
one standard error straddles zero. -/
def yieldEx : YieldInput := ⟨[2, 2], [7, 8], 1, 0, 1, [0], [1], 1⟩

/-- The fatal `StatusMessage` built by each all-`None` return of the
single-well `_maxGrowthrate` (the dynamic `details` text, emitted only when
`detailsInMessage` is set, is omitted); every one carries
`Severity.failed`.  `mt` is the method text. -/
def GrowthFail.toStatus (mt : String) : GrowthFail → StatusMessage
| .noMu => .single ("max. growth rate (" ++ mt ++ "):")
    ("growthrate(" ++ mt ++ "):noMu") "no growth rate could be determined"
    .failed 0
| .noMuWithinLimits => .single ("max. growth rate (" ++ mt ++ "):")
    ("growthrate(" ++ mt ++ "):noMuWithinLimits")
    "no growth rate within cutoff limits" .failed 0
| .mumaxLe0 => .single ("max. growth rate (" ++ mt ++ "):")
    ("growthrate(" ++ mt ++ "):mumaxLt0")
    "maximal growth rate less than zero" .failed 0
| .od0maxLe0 => .single ("max. growth rate (" ++ mt ++ "):")
    ("growthrate(" ++ mt ++ "):od0maxLt0")
    "initial OD is less than zero" .failed 0
| .lagGtValAtMumax => .single ("max. growth rate (" ++ mt ++ "):")
    ("growthrate(" ++ mt ++ "):lagGtValAtMumax")
    "OD at lag is greater than OD at time of maximal growth" .failed 0
| .maxAtFirstNonNanRemoved => .single ("max. growth rate (" ++ mt ++ "):")
    ("growthrate(" ++ mt ++ "):maxAtFirstNonNanRemoved")
    "maximal growth rate rejected: next to maximum there is no growth rate defined"
    .failed 0
| .maxAtLowerCutoffRemoved => .single ("max. growth rate (" ++ mt ++ "):")
    ("growthrate(" ++ mt ++ "):maxAtLowerCutoffRemoved")
    "maximal growth rate rejected: located at lower cutoff" .failed 0
| .maxAtLogOdCutoffRemoved => .single ("max. growth rate (" ++ mt ++ "):")
    ("growthrate(" ++ mt ++ "):maxAtLogOdCutoffRemoved")
    "maximal growth rate rejected: located at log(OD) cutoff" .failed 0
| .maxAtEndNoNeighbor => .single ("max. growth rate (" ++ mt ++ "):")
    ("growthrate(" ++ mt ++ "):maxAtUpperCutoffRemoved")
    "maximal growth rate rejected: there is no growth rate defined for greater times"
    .failed 0
| .maxAtUpperCutoffRemoved => .single ("max. growth rate (" ++ mt ++ "):")
    ("growthrate(" ++ mt ++ "):maxAtUpperCutoffRemoved")
    "maximal growth rate rejected: located at upper cutoff" .failed 0
| .maxAtLogOdCutoffRightRemoved => .single ("max. growth rate (" ++ mt ++ "):")
    ("growthrate(" ++ mt ++ "):maxAtLogOdCutoffRemoved")
    "maximal growth rate rejected: located at log(OD) cutoff" .failed 0

/-- The warning `StatusMessage` attached when a tolerated lower-cutoff
maximum is accepted; every one carries `Severity.warning`. -/
def GrowthWarn.toStatus (mt : String) : GrowthWarn → StatusMessage
| .maxAtFirstNonNan => .single ("max. growth rate (" ++ mt ++ "):")
    ("growthrate(" ++ mt ++ "):maxAtFirstNonNan")
    "maximal growth rate: next to maximum there is no growth rate defined"
    .warning 0
| .maxAtLowerCutoff => .single ("max. growth rate (" ++ mt ++ "):")
    ("growthrate(" ++ mt ++ "):maxAtLowerCutoff")
    "maximal growth rate: located at lower cutoff" .warning 0
| .maxAtLogOdCutoff => .single ("max. growth rate (" ++ mt ++ "):")
    ("growthrate(" ++ mt ++ "):maxAtLogOdCutoff")
    "maximal growth rate: located at log(OD) cutoff" .warning 0

/-- The fatal `StatusMessage` built by each all-`None` return of the
single-well `_growthyield` scan; both carry `Severity.failed`. -/
def YieldFail.toStatus : YieldFail → StatusMessage
| .noValidIndices => .single "growthyield" "growthyield:noValidIndices"
    "no window with a slope compatible with zero" .failed 0
| .negativeYield => .single "growthyield" "growthyield:negativeYield"
    "invalid yield (negative)" .failed 0

/-! ### Helper lemmas -/

/-- Looking a key up in an association list filtered by key membership in
`keep` yields the original binding for kept keys and `none` otherwise. -/
theorem lookup_filter_keep {β : Type} (keep : List String)
    (mem : List (String × β)) (q : String) :
    (mem.filter (fun kv => decide (kv.1 ∈ keep))).lookup q =
      if q ∈ keep then mem.lookup q else none := by
  induction mem with
  | nil => by_cases hq : q ∈ keep <;> simp [List.lookup, hq]
  | cons kv rest ih =>
    obtain ⟨k, v⟩ := kv
    by_cases hk : k ∈ keep
    · by_cases hq : q = k
      · subst hq
        simp [List.filter_cons, hk, List.lookup, ih]
      · have hqk : (q == k) = false := beq_false_of_ne hq
        simp [List.filter_cons, hk, List.lookup, hqk, ih]
    · by_cases hq : q = k
      · subst hq
        simp [List.filter_cons, hk, List.lookup, ih]
      · have hqk : (q == k) = false := beq_false_of_ne hq
        simp [List.filter_cons, hk, List.lookup, hqk, ih]

/-! ### C5 -/

/-- C5 (frame effect of selective cache invalidation): for a parameter `par`
listed in the `_memoisedDontClear` table with exempt set `keep`, clearing
the memoised results with `par` leaves exactly the quantities in `keep`
with their cached values unchanged and removes every other entry; clearing
with no parameter name, or with a parameter not in the table, removes every
cached quantity. -/
theorem clearMemoised_spec {β : Type} (mem : List (String × β)) (par : String)
    (keep : List String) (h : memoisedDontClear par = some keep) :
    (∀ q, (clearMemoised mem (some par)).lookup q =
        if q ∈ keep then mem.lookup q else none)
    ∧ clearMemoised mem none = []
    ∧ (∀ p2, memoisedDontClear p2 = none → clearMemoised mem (some p2) = []) := by
  refine ⟨fun q => ?_, rfl, fun p2 h2 => ?_⟩
  · simp only [clearMemoised, h]
    exact lookup_filter_keep keep mem q
  · simp [clearMemoised, h2]

/-- Witness for C5: clearing with `smoothingK` keeps the cached `rawOd` value
and drops the cached `smoothedOd` value. -/
theorem clearMemoised_spec_witness :
    (clearMemoised [("smoothedOd", (1 : Nat)), ("rawOd", 2)] (some "smoothingK")).lookup "rawOd"
        = some 2
    ∧ (clearMemoised [("smoothedOd", (1 : Nat)), ("rawOd", 2)] (some "smoothingK")).lookup "smoothedOd"
        = none := by
  have h := clearMemoised_spec [("smoothedOd", (1 : Nat)), ("rawOd", 2)] "smoothingK"
    ["derivative", "expFitsMu", "expFitsOd0Mu", "logOd", "od", "odVar",
     "rawOd", "rawOdVar"] rfl
  exact ⟨(h.1 "rawOd").trans (by decide), (h.1 "smoothedOd").trans (by decide)⟩

/-! ### C4 -/

/-- C4 (parameter resolution): `getParameter(well, "hdCorrectionLinear")`
always resolves to the plate default, because `hdCorrectionLinear` is a
pure-plate parameter — in particular neither a well nor a replicate group
can even carry an explicit override for it (their
`_inheritableParameters` dicts do not contain the key), so the claim's
premise "the group has one" is unsatisfiable, and the plate-default clause
holds unconditionally.  In general, for a well-editable parameter the
resolution checks the well's explicit override, then the parent group's
explicit override, then the plate default. -/
theorem getParameter_resolution {α : Type} (plate : PlateParams α)
    (g w : ReplicateParams α) (par : String) (wv gv dv : Option α)
    (hpure : isPurePlateParameter par = false)
    (hw : w.lookup par = some wv) (hg : g.lookup par = some gv)
    (hd : plate.lookup par = some dv) :
    wellGetParameter plate (some g) w "hdCorrectionLinear"
        = .ok plate.hdCorrectionLinear
    ∧ g.lookup "hdCorrectionLinear" = none
    ∧ w.lookup "hdCorrectionLinear" = none
    ∧ wellGetParameter plate (some g) w par
        = .ok (if wv.isSome then wv else if gv.isSome then gv else dv) := by
  refine ⟨rfl, rfl, rfl, ?_⟩
  simp only [wellGetParameter, hpure, Bool.false_eq_true, if_false, hw]
  cases wv with
  | some x => simp
  | none =>
    simp only [Option.isSome_none, Bool.false_eq_true, if_false]
    simp only [groupGetParameter, hpure, Bool.false_eq_true, if_false, hg]
    cases gv with
    | some y => simp
    | none => simp [getDefaultParameter, hd]

/-- Witness for C4: a concrete plate/group/well where the well inherits the
group's `maxGrowthLowerTimeCutoff` override, and where
`hdCorrectionLinear` comes from the plate. -/
theorem getParameter_resolution_witness :
    wellGetParameter
        (PlateParams.mk (some 7) none none none none none none (some 3) none none none none : PlateParams Nat)
        (some (ReplicateParams.mk (some 5) none none none))
        (ReplicateParams.mk none none none none)
        "maxGrowthLowerTimeCutoff" = .ok (some 5)
    ∧ wellGetParameter
        (PlateParams.mk (some 7) none none none none none none (some 3) none none none none : PlateParams Nat)
        (some (ReplicateParams.mk (some 5) none none none))
        (ReplicateParams.mk none none none none)
        "hdCorrectionLinear" = .ok (some 3) := by
  have h := getParameter_resolution
    (PlateParams.mk (some 7) none none none none none none (some 3) none none none none : PlateParams Nat)
    (ReplicateParams.mk (some 5) none none none)
    (ReplicateParams.mk none none none none)
    "maxGrowthLowerTimeCutoff" none (some 5) (some 7) rfl rfl rfl rfl
  exact ⟨h.2.2.2, h.1⟩

/-! ### C2 -/

/-- C2 (corrected OD): `od` is undefined (`None`, not an error) whenever the
background reference is unset or any of the three high-density correction
coefficients is unset; when everything is set, `od` is pointwise
`a1*d + a2*d^2 + a3*d^3` with `d = rawOd - background.rawOd`; and when the
raw OD equals the background's raw OD at every timepoint the corrected OD
is identically zero. -/
theorem calculateOd_spec (inp : OdCorrectionInput) (raw bg : List ℚ)
    (a1 a2 a3 : ℚ)
    (hraw : inp.rawOd = some raw) (hbg : inp.background = some (some bg))
    (h1 : inp.hdCorrectionLinear = some a1)
    (h2 : inp.hdCorrectionQuadratic = some a2)
    (h3 : inp.hdCorrectionCubic = some a3) :
    (∀ inp2 : OdCorrectionInput,
      (inp2.background = none ∨ inp2.hdCorrectionLinear = none ∨
       inp2.hdCorrectionQuadratic = none ∨ inp2.hdCorrectionCubic = none) →
      calculateOd inp2 = .ok (none, none))
    ∧ odComponent inp = .ok
        (some ((List.zipWith (fun x y => x - y) raw bg).map
          (fun d => a1 * d + a2 * d ^ 2 + a3 * d ^ 3)))
    ∧ (raw = bg → odComponent inp = .ok (some (raw.map (fun _ => 0)))) := by
  obtain ⟨rawF, rawVarF, bgF, bgVarF, c1, c2, c3⟩ := inp
  simp only at hraw hbg h1 h2 h3
  subst hraw hbg h1 h2 h3
  refine ⟨fun inp2 h => ?_, rfl, fun heq => ?_⟩
  · obtain ⟨rawF2, rawVarF2, bgF2, bgVarF2, d1, d2, d3⟩ := inp2
    simp only at h
    rcases h with h | h | h | h
    · subst h; cases rawF2 <;> cases d1 <;> cases d2 <;> cases d3 <;> rfl
    · subst h; cases rawF2 <;> cases bgF2 <;> cases d2 <;> cases d3 <;> rfl
    · subst h; cases rawF2 <;> cases bgF2 <;> cases d1 <;> cases d3 <;> rfl
    · subst h; cases rawF2 <;> cases bgF2 <;> cases d1 <;> cases d2 <;> rfl
  · subst heq
    have hzip : List.zipWith (fun x y => x - y) raw raw
        = raw.map (fun _ => (0 : ℚ)) := by
      induction raw with
      | nil => rfl
      | cons x xs ih => simp [List.zipWith, ih]
    have hstep : odComponent ⟨some raw, rawVarF, some (some raw), bgVarF,
        some a1, some a2, some a3⟩ = .ok
        (some ((List.zipWith (fun x y => x - y) raw raw).map
          (fun d => a1 * d + a2 * d ^ 2 + a3 * d ^ 3))) := rfl
    rw [hstep, hzip, List.map_map]
    have hmap : raw.map ((fun d => a1 * d + a2 * d ^ 2 + a3 * d ^ 3) ∘ (fun _ => (0 : ℚ)))
        = raw.map (fun _ => (0 : ℚ)) := by
      apply List.map_congr_left
      intro a _
      simp
    rw [hmap]

/-- Witness for C2: a concrete input where raw equals the background raw, so
the corrected OD is identically zero; and an input with an unset
background, so the corrected OD is undefined (no error is raised). -/
theorem calculateOd_spec_witness :
    odComponent ⟨some [1, 2], none, some (some [1, 2]), none, some 2, some 3, some 4⟩
        = .ok (some [0, 0])
    ∧ calculateOd ⟨some [1, 2], none, none, none, some 2, some 3, some 4⟩
        = .ok (none, none) := by
  have h := calculateOd_spec
    ⟨some [1, 2], none, some (some [1, 2]), none, some 2, some 3, some 4⟩
    [1, 2] [1, 2] 2 3 4 rfl rfl rfl rfl rfl
  exact ⟨h.2.2 rfl, h.1 ⟨some [1, 2], none, none, none, some 2, some 3, some 4⟩
    (Or.inl rfl)⟩

/-! ### C9 -/

/-- Folding the severity accumulator from `warning` never leaves `warning`
(it is the numerically largest severity). -/
theorem severityFold_warning (l : List StatusMessage) :
    StatusMessage.severityFold .warning l = .warning := by
  induction l with
  | nil => rw [StatusMessage.severityFold]
  | cons st rest ih =>
    rw [StatusMessage.severityFold]
    have h : (if Severity.warning.toNat < st.severity.toNat then st.severity
        else Severity.warning) = Severity.warning := by
      cases hs : st.severity <;> simp [Severity.toNat]
    rw [h]
    exact ih

/-- If some substatus has severity `warning`, the severity fold returns
`warning` whatever the accumulator. -/
theorem severityFold_mem_warning (l : List StatusMessage) (acc : Severity)
    (h : ∃ st ∈ l, st.severity = .warning) :
    StatusMessage.severityFold acc l = .warning := by
  induction l generalizing acc with
  | nil =>
    obtain ⟨st, hmem, _⟩ := h
    cases hmem
  | cons st rest ih =>
    obtain ⟨st2, hmem, hsev⟩ := h
    rw [StatusMessage.severityFold]
    rcases List.mem_cons.mp hmem with heq | hmem2
    · subst heq
      rw [hsev]
      cases acc <;> simp [Severity.toNat, severityFold_warning]
    · exact ih _ ⟨st2, hmem2, hsev⟩

/-- Counterexample for C9: a status list containing both a
fatal-for-this-quantity (`failed`) substatus and a `warning` substatus has
overall severity `warning`, not `failed`, and `type2status` selects the
warning message for the shared message type — because the source enum
orders `failed=2 < warning=3`. -/
theorem severityMixed_counterexample :
    (StatusMessage.slist [.single "k" "s1" "l1" .failed 0,
        .single "k" "s2" "l2" .warning 0]).severity ≠ Severity.failed
    ∧ (StatusMessage.slist [.single "k" "s1" "l1" .failed 0,
        .single "k" "s2" "l2" .warning 0]).severity = Severity.warning
    ∧ (assocFind "k" (StatusMessage.type2status
        (.slist [.single "k" "s1" "l1" .failed 0,
                 .single "k" "s2" "l2" .warning 0]))).map StatusMessage.severity
      = some Severity.warning := by
  refine ⟨?_, ?_, ?_⟩
  · simp [StatusMessage.severity, StatusMessage.severityFold, Severity.toNat]
  · simp [StatusMessage.severity, StatusMessage.severityFold, Severity.toNat]
  · simp [StatusMessage.type2status, StatusMessage.type2statusFold, type2statusMerge,
      type2statusInsert, assocFind, assocSet, StatusMessage.severity,
      StatusMessage.severity2, Severity.toNat]

/-- C9 amended: the severities are numerically ordered
`message < failed < warning` (not `message < warning < failed`); hence for
a status list containing a `warning` substatus, `severity()` returns
`warning` — in particular a list containing both a failed and a warning
substatus has severity `warning` — and for a message type carrying both a
failed and a warning status, `type2status` selects the warning one. -/
theorem severityOrder_spec :
    (Severity.message.toNat < Severity.failed.toNat
      ∧ Severity.failed.toNat < Severity.warning.toNat)
    ∧ (∀ subs : List StatusMessage, (∃ st ∈ subs, st.severity = .warning) →
        (StatusMessage.slist subs).severity = .warning)
    ∧ (∀ (k s1 l1 s2 l2 : String) (n1 n2 : Nat),
        assocFind k (StatusMessage.type2status
          (.slist [.single k s1 l1 .failed n1, .single k s2 l2 .warning n2]))
          = some (.single k s2 l2 .warning n2)) := by
  refine ⟨⟨by decide, by decide⟩, fun subs h => ?_, fun k s1 l1 s2 l2 n1 n2 => ?_⟩
  · rw [StatusMessage.severity]
    exact severityFold_mem_warning subs _ h
  · simp [StatusMessage.type2status, StatusMessage.type2statusFold, type2statusMerge,
      type2statusInsert, assocFind, assocSet, StatusMessage.severity,
      StatusMessage.severity2, Severity.toNat]

/-- Witness for C9 (amended): the severity of a concrete mixed list is
`warning`. -/
theorem severityOrder_spec_witness :
    (StatusMessage.slist [.single "k" "s1" "l1" .failed 0,
        .single "k" "s2" "l2" .warning 0]).severity = Severity.warning := by
  exact severityOrder_spec.2.1 _
    ⟨.single "k" "s2" "l2" .warning 0, by simp, rfl⟩

/-! ### Shared lemmas for the aggregation claims -/

/-- A `filterMap` of component projections commutes with `filterMap` of the
underlying optional values. -/
theorem filterMap_option_map {α γ δ : Type} (f : γ → δ) (g : α → Option γ)
    (l : List α) :
    (l.map (fun c => (g c).map f)).filterMap id = (l.filterMap g).map f := by
  induction l with
  | nil => rfl
  | cons c rest ih => cases hg : g c <;> simp [hg, ih]

/-- Every entry maps to `none` exactly when the `filterMap` is empty. -/
theorem all_none_iff_filterMap_eq_nil {α β : Type} (g : α → Option β)
    (l : List α) :
    (∀ c ∈ l, g c = none) ↔ l.filterMap g = [] := by
  induction l with
  | nil => simp
  | cons c rest ih =>
    rw [List.filterMap_cons]
    cases hg : g c with
    | none =>
      constructor
      · intro h
        exact ih.mp (fun x hx => h x (List.mem_cons_of_mem c hx))
      · intro h x hx
        rcases List.mem_cons.mp hx with rfl | hx2
        · exact hg
        · exact ih.mpr h x hx2
    | some b =>
      constructor
      · intro h
        exact absurd (h c (List.mem_cons_self c rest)) (by simp [hg])
      · intro h
        cases h

/-- `maskedArrayToMeanVar` on an array whose unmasked entries are `vs ≠ []`:
the mean of `vs` and the `ddof` sample variance (undefined when there are
at most `ddof` entries). -/
theorem maskedArrayToMeanVar_eq (marr : List (Option ℚ)) (ddof : Nat)
    (vs : List ℚ) (h : marr.filterMap id = vs) (hne : vs ≠ []) :
    maskedArrayToMeanVar marr ddof =
      (some (vs.sum / (vs.length : ℚ)),
       if vs.length ≤ ddof then none
       else some ((vs.map (fun x => (x - vs.sum / (vs.length : ℚ)) ^ 2)).sum
         / ((vs.length : ℚ) - (ddof : ℚ)))) := by
  have hlen : vs.length ≠ 0 := fun h0 => hne (List.length_eq_zero.mp h0)
  simp [maskedArrayToMeanVar, h, hlen]

/-- `maskedArrayToMeanVar` with a single unmasked entry and `ddof=1`: the
mean is that entry and the variance is undefined. -/
theorem maskedArrayToMeanVar_single (marr : List (Option ℚ)) (x : ℚ)
    (h : marr.filterMap id = [x]) :
    maskedArrayToMeanVar marr 1 = (some x, none) := by
  rw [maskedArrayToMeanVar_eq marr 1 [x] h (by simp)]
  simp

/-- Unfolding of `groupMaxGrowthrate` when at least one child is defined:
the `.ok` result built from the four `maskedArrayToMeanVar` calls. -/
theorem groupMaxGrowthrate_not_all_none (mt : String)
    (children : List ChildGrowthProj) (h : ¬ ∀ c ∈ children, c.vals = none) :
    ∃ sts, groupMaxGrowthrate mt children = .ok
      (maskedArrayToMeanVar (children.map (fun c => c.vals.map (fun v => v.1))) 1).1
      (maskedArrayToMeanVar (children.map (fun c => c.vals.map (fun v => v.1))) 1).2
      (maskedArrayToMeanVar (children.map (fun c => c.vals.map (fun v => v.2.1))) 1).1
      (maskedArrayToMeanVar (children.map (fun c => c.vals.map (fun v => v.2.1))) 1).2
      (maskedArrayToMeanVar (children.map (fun c => c.vals.map (fun v => v.2.2))) 1).1
      (maskedArrayToMeanVar (children.map (fun c => c.vals.map (fun v => v.2.2))) 1).2
      (maskedArrayToMeanVar (children.map (fun c => c.lag)) 1).1
      (maskedArrayToMeanVar (children.map (fun c => c.lag)) 1).2 sts := by
  simp only [groupMaxGrowthrate, if_neg h]
  exact ⟨_, rfl⟩

/-- Unfolding of `groupGrowthyield` when at least one child is defined: the
`.ok` result built from the two `maskedArrayToMeanVar` calls. -/
theorem groupGrowthyield_not_all_none (children : List ChildYieldProj)
    (h : ¬ ∀ c ∈ children, c.vals = none) :
    ∃ sts, groupGrowthyield children = .ok
      (maskedArrayToMeanVar (children.map (fun c => c.vals.map (fun v => v.1))) 1).1
      (maskedArrayToMeanVar (children.map (fun c => c.vals.map (fun v => v.1))) 1).2
      (maskedArrayToMeanVar (children.map (fun c => c.vals.map (fun v => v.2))) 1).1
      (maskedArrayToMeanVar (children.map (fun c => c.vals.map (fun v => v.2))) 1).2
      sts := by
  simp only [groupGrowthyield, if_neg h]
  exact ⟨_, rfl⟩

/-- `maskedArrayToMeanVar` with `ddof=1` agrees with the spec-side
`meanVarDdof1` on the unmasked values. -/
theorem maskedArrayToMeanVar_ddof1 (marr : List (Option ℚ)) (vs : List ℚ)
    (h : marr.filterMap id = vs) (hne : vs ≠ []) :
    maskedArrayToMeanVar marr 1 = meanVarDdof1 vs := by
  rw [maskedArrayToMeanVar_eq marr 1 vs h hne, meanVarDdof1]
  norm_num

/-! ### C6 -/

/-- C6 (replicate-group aggregation of the growth-rate result): the group
result is undefined if and only if every active child is undefined, in
which case the returned status merges all children's statuses; when at
least one child is defined, the result is computed from the valid subset
`vs` only — `mumax`, `od0max` and `maxt` are averaged independently as the
masked mean and `ddof=1` sample variance over `vs`, and the lag is averaged
independently with its own mask. -/
theorem groupAggregation_spec (mt : String) (children : List ChildGrowthProj) :
    ((groupMaxGrowthrate mt children).isUndef = true ↔
        ∀ c ∈ children, c.vals = none)
    ∧ ((∀ c ∈ children, c.vals = none) →
        groupMaxGrowthrate mt children =
          .undef (.slist (children.filterMap (fun c => c.status))))
    ∧ (∀ vs, children.filterMap (fun c => c.vals) = vs → vs ≠ [] →
        ∃ sts, groupMaxGrowthrate mt children = .ok
          (meanVarDdof1 (vs.map (fun p => p.1))).1
          (meanVarDdof1 (vs.map (fun p => p.1))).2
          (meanVarDdof1 (vs.map (fun p => p.2.1))).1
          (meanVarDdof1 (vs.map (fun p => p.2.1))).2
          (meanVarDdof1 (vs.map (fun p => p.2.2))).1
          (meanVarDdof1 (vs.map (fun p => p.2.2))).2
          (maskedArrayToMeanVar (children.map (fun c => c.lag)) 1).1
          (maskedArrayToMeanVar (children.map (fun c => c.lag)) 1).2 sts) := by
  refine ⟨?_, fun hall => ?_, fun vs hvs hne => ?_⟩
  · constructor
    · intro h
      by_contra hall
      obtain ⟨sts, hok⟩ := groupMaxGrowthrate_not_all_none mt children hall
      rw [hok] at h
      exact absurd h (by simp [GroupGrowthOutcome.isUndef])
    · intro hall
      simp [groupMaxGrowthrate, if_pos hall, GroupGrowthOutcome.isUndef]
  · simp only [groupMaxGrowthrate, if_pos hall]
  · have hall : ¬ ∀ c ∈ children, c.vals = none := by
      rw [all_none_iff_filterMap_eq_nil, hvs]
      exact hne
    obtain ⟨sts, hok⟩ := groupMaxGrowthrate_not_all_none mt children hall
    have hvne : ∀ (f : ℚ × ℚ × ℚ → ℚ), vs.map f ≠ [] := by
      intro f hnil
      exact hne (List.map_eq_nil_iff.mp hnil)
    rw [maskedArrayToMeanVar_ddof1 _ (vs.map (fun p => p.1))
        (by rw [filterMap_option_map, hvs]) (hvne _),
      maskedArrayToMeanVar_ddof1 _ (vs.map (fun p => p.2.1))
        (by rw [filterMap_option_map, hvs]) (hvne _),
      maskedArrayToMeanVar_ddof1 _ (vs.map (fun p => p.2.2))
        (by rw [filterMap_option_map, hvs]) (hvne _)] at hok
    exact ⟨sts, hok⟩

/-- Witness for C6: a two-child group with one fatally rejected child: the
group result is the valid child's values with undefined variances. -/
theorem groupAggregation_spec_witness :
    ∃ sts, groupMaxGrowthrate "exp. fit"
        [⟨none, none, none⟩, ⟨some (5, 2, 3), some 7, none⟩] = .ok
      (some 5) none (some 2) none (some 3) none (some 7) none sts := by
  obtain ⟨sts, h⟩ := (groupAggregation_spec "exp. fit"
    [⟨none, none, none⟩, ⟨some (5, 2, 3), some 7, none⟩]).2.2
    [(5, 2, 3)] rfl (by simp)
  refine ⟨sts, ?_⟩
  have h1 : (maskedArrayToMeanVar
      (List.map (fun c => c.lag)
        [⟨none, none, none⟩, (⟨some (5, 2, 3), some 7, none⟩ : ChildGrowthProj)]) 1)
      = (some 7, none) :=
    maskedArrayToMeanVar_single _ 7 rfl
  rw [h1] at h
  have h2 : meanVarDdof1 [(5 : ℚ)] = (some 5, none) := by
    simp [meanVarDdof1]
  have h3 : meanVarDdof1 [(2 : ℚ)] = (some 2, none) := by
    simp [meanVarDdof1]
  have h4 : meanVarDdof1 [(3 : ℚ)] = (some 3, none) := by
    simp [meanVarDdof1]
  simpa [h2, h3, h4] using h

/-! ### C10 -/

/-- The column-wise mean of a single row is the row itself. -/
theorem columnMean_single (row : List ℚ) : columnMean [row] row.length = row := by
  apply List.ext_getElem
  · simp [columnMean]
  · intro i h1 h2
    simp only [columnMean, List.getElem_map, List.getElem_range, List.map_cons,
      List.map_nil, List.sum_cons, List.sum_nil, List.length_cons, List.length_nil]
    rw [List.getD_eq_getElem _ _ h2]
    push_cast
    ring

/-- C10 (degenerate statistics for a single sample): for an entity with a
single active child well the raw OD is that child's curve while the raw-OD
variance is undefined; the variance is undefined for any entity with fewer
than two active children; a replicate group in which exactly one child has
a defined growth-rate result and exactly one child has a defined lag
reports that child's `mumax`, `od0max`, `maxt` and lag as the group means
with all four variances undefined (`ddof=1` over one sample); and a
replicate group in which exactly one child has a defined growth yield
reports that child's yield and yield time as the group means with both
variances undefined. -/
theorem singleChildStatistics_spec (plateRaw : List (Option (List ℚ)))
    (wellIndices : List Nat) (la : Nat) (row : List ℚ)
    (hrow : plateRaw.getD (wellIndices.getD la 0) none = some row)
    (hlen : row.length = ((plateRaw.getD 0 none).getD []).length) :
    calculateRawOd plateRaw wellIndices [la] = (some row, none)
    ∧ (∀ active : List Nat, active.length < 2 →
        (calculateRawOd plateRaw wellIndices active).2 = none)
    ∧ (∀ (mt : String) (children : List ChildGrowthProj) (v od0v maxtv lagv : ℚ),
        children.filterMap (fun c => c.vals) = [(v, od0v, maxtv)] →
        children.filterMap (fun c => c.lag) = [lagv] →
        ∃ sts, groupMaxGrowthrate mt children =
          .ok (some v) none (some od0v) none (some maxtv) none (some lagv) none sts)
    ∧ (∀ (children : List ChildYieldProj) (gyv tgyv : ℚ),
        children.filterMap (fun c => c.vals) = [(gyv, tgyv)] →
        ∃ sts, groupGrowthyield children =
          .ok (some gyv) none (some tgyv) none sts) := by
  refine ⟨?_, fun active hactive => ?_,
    fun mt children v od0v maxtv lagv hvs hlg => ?_,
    fun children gyv tgyv hvs => ?_⟩
  · simp only [calculateRawOd, List.map_cons, List.map_nil, hrow, Option.getD_some,
      List.length_cons, List.length_nil, Nat.lt_irrefl]
    rw [← hlen]
    simp [columnMean_single]
  · have : ¬ (1 < active.length) := by omega
    simp [calculateRawOd, this]
  · have hall : ¬ ∀ c ∈ children, c.vals = none := by
      rw [all_none_iff_filterMap_eq_nil, hvs]
      simp
    obtain ⟨sts, hok⟩ := groupMaxGrowthrate_not_all_none mt children hall
    have hmu : (children.map (fun c => c.vals.map (fun p => p.1))).filterMap id
        = [v] := by rw [filterMap_option_map, hvs]; rfl
    have hod0 : (children.map (fun c => c.vals.map (fun p => p.2.1))).filterMap id
        = [od0v] := by rw [filterMap_option_map, hvs]; rfl
    have hmaxt : (children.map (fun c => c.vals.map (fun p => p.2.2))).filterMap id
        = [maxtv] := by rw [filterMap_option_map, hvs]; rfl
    have hlag : (children.map (fun c => c.lag)).filterMap id = [lagv] := by
      rw [List.filterMap_map]
      exact hlg
    rw [maskedArrayToMeanVar_single _ _ hmu, maskedArrayToMeanVar_single _ _ hod0,
      maskedArrayToMeanVar_single _ _ hmaxt, maskedArrayToMeanVar_single _ _ hlag] at hok
    exact ⟨sts, hok⟩
  · have hall : ¬ ∀ c ∈ children, c.vals = none := by
      rw [all_none_iff_filterMap_eq_nil, hvs]
      simp
    obtain ⟨sts, hok⟩ := groupGrowthyield_not_all_none children hall
    have hgy : (children.map (fun c => c.vals.map (fun p => p.1))).filterMap id
        = [gyv] := by rw [filterMap_option_map, hvs]; rfl
    have htgy : (children.map (fun c => c.vals.map (fun p => p.2))).filterMap id
        = [tgyv] := by rw [filterMap_option_map, hvs]; rfl
    rw [maskedArrayToMeanVar_single _ _ hgy, maskedArrayToMeanVar_single _ _ htgy] at hok
    exact ⟨sts, hok⟩

/-- Witness for C10: a plate with a single well whose replicate has one
active child: the raw OD is the well's curve and the variance is
undefined; a concrete group with exactly one defined child reports that
child's growth rate, OD0, time of max and lag with undefined variances;
and a concrete group with exactly one child with a defined yield reports
that child's yield and yield time with undefined variances. -/
theorem singleChildStatistics_spec_witness :
    calculateRawOd [some [1, 2]] [0] [0] = (some [1, 2], none)
    ∧ (∃ sts, groupMaxGrowthrate "exp. fit"
        [⟨some (9, 4, 6), some 7, none⟩] =
          .ok (some 9) none (some 4) none (some 6) none (some 7) none sts)
    ∧ (∃ sts, groupGrowthyield [⟨some (5, 3), none⟩] =
          .ok (some 5) none (some 3) none sts) := by
  have h := singleChildStatistics_spec [some [1, 2]] [0] 0 [1, 2] rfl rfl
  exact ⟨h.1,
    h.2.2.1 "exp. fit" [⟨some (9, 4, 6), some 7, none⟩] 9 4 6 7 rfl rfl,
    h.2.2.2 [⟨some (5, 3), none⟩] 5 3 rfl⟩

/-! ### C8 -/

/-- Counterexample for C8: `smoothedOd` has no try/except around the spline
fit, so a fit that raises an exception (a numerical *failure* rather than a
warning) propagates out of `smoothedOd` instead of producing the undefined
result the claim promises for both accessors. -/
theorem smoothedOdRaises_counterexample :
    smoothedOd (some [1]) none .raised = .raises := rfl

/-- C8 amended: `logOdSmoothed` never raises — both a fit warning and a fit
exception yield the undefined result with `None` memoised — and
`smoothedOd` converts a fit *warning* into the undefined memoised result
without raising; but a fit *exception* inside `smoothedOd` propagates to
the caller (only warnings are caught there). -/
theorem smoothingNeverRaises_spec (od : Option (List ℚ))
    (memo : Option (Option (List ℚ))) (fit : FitOutcome) :
    logOdSmoothed memo fit ≠ .raises
    ∧ (fit = .warned → smoothedOd od memo fit ≠ .raises)
    ∧ smoothedOd od none .warned =
        (if od.isSome then .returns none (some none) else .returns none none)
    ∧ logOdSmoothed none .raised = .returns none (some none)
    ∧ (∀ l : List ℚ, smoothedOd (some l) none .raised = .raises) := by
  refine ⟨?_, ?_, ?_, rfl, fun l => rfl⟩
  · cases memo with
    | some v => simp [logOdSmoothed]
    | none => cases fit <;> simp [logOdSmoothed]
  · intro hw
    subst hw
    cases memo with
    | some v => simp [smoothedOd]
    | none => cases od <;> simp [smoothedOd]
  · cases od <;> rfl

/-- Witness for C8 (amended): concrete runs of both accessors on a warned
fit, and of `logOdSmoothed` on a raising fit. -/
theorem smoothingNeverRaises_spec_witness :
    smoothedOd (some [1]) none .warned ≠ .raises
    ∧ logOdSmoothed none .raised = .returns none (some none) := by
  have h := smoothingNeverRaises_spec (some [1]) none .warned
  exact ⟨h.2.1 rfl, h.2.2.2.1⟩

/-! ### C3 -/

/-- C3, evaluated: at day 0 the lag is 2 (with undefined variance) and the
growth rate 1; at day 1 no growth rate could be extracted (`mu = None`), so
the doubling time is undefined.  The code gives viability 0 for day 1 as
the claim states, but its variance is NaN (`none`), not 0: the trailing
if/else of the loop unconditionally overwrites the `viabilityvar[i]=0.`
assignment of the no-growth branch, because the doubling-time variance is
undefined there.  The remaining conjuncts check the claim's other parts:
an undefined day-0 lag makes the whole series undefined with the
failed-severity status, and the survival integral is the trapezoidal
integral of the viability series, undefined whenever viability is
undefined.  The transcendental parameters are instantiated with
`pow2 = fun _ => 1` and `ln2 = 1`. -/
theorem viabilityNoGrowthVariance :
    viabilitySingle (fun _ => 1) 1 [0, 1]
        [some ⟨some (1, none), some (2, none)⟩, some ⟨none, none⟩]
      = .series [0, 1] [some 1, some 0] [none, none]
    ∧ viabilitySingle (fun _ => 1) 1 [0, 1]
        [some ⟨some (1, none), none⟩, some ⟨some (1, none), some (3, none)⟩]
      = .noInitialLag
    ∧ noInitialLagStatus.severity = .failed
    ∧ survivalIntegralSingle (fun _ => 1) 1 [0, 1]
        [some ⟨some (1, none), none⟩, some ⟨some (1, none), some (3, none)⟩]
      = .undef
    ∧ survivalIntegralSingle (fun _ => 1) 1 [0, 1]
        [some ⟨some (1, none), some (2, none)⟩, some ⟨some (1, none), some (2, none)⟩]
      = .value (trapz [some 1, some 1] [0, 1]) := by
  refine ⟨rfl, rfl, ?_, rfl, rfl⟩
  simp [noInitialLagStatus, StatusMessage.severity]

/-! ### C1 -/

/-- An empty first-stage mask forces an empty second-stage mask. -/
theorem mgValid2_nil_of_valid1_nil (inp : GrowthSelInput)
    (h : mgValid1 inp = []) : mgValid2 inp = [] := by
  unfold mgValid1 at h
  unfold mgValid2
  rw [List.filter_eq_nil_iff] at h ⊢
  intro a ha
  have h1 := h a ha
  simp only [mgIdcs2, Bool.and_eq_true]
  rintro ⟨⟨hi, -⟩, -⟩
  exact h1 hi

/-- Case analysis of the continuation after the lower-cutoff handling: the
upper-boundary chain either rejects fatally, or the result is accepted and
carries exactly the warning decided by the lower-cutoff handling. -/
theorem mgAfterLeft_cases (expf logf : ℚ → ℚ) (inp : GrowthSelInput)
    (warn : Option GrowthWarn) :
    (∃ f, mgRightFatal inp = some f ∧ mgAfterLeft expf logf inp warn = .fatal f)
    ∨ (mgRightFatal inp = none ∧
        ∃ r, mgAfterLeft expf logf inp warn = .ok r ∧ r.warn = warn) := by
  cases hr : mgRightFatal inp with
  | some f =>
    refine Or.inl ⟨f, rfl, ?_⟩
    unfold mgAfterLeft
    rw [hr]
  | none =>
    refine Or.inr ⟨rfl, ?_⟩
    unfold mgAfterLeft
    rw [hr]
    cases hL : inp.lagAtLogOdEquals with
    | none => exact ⟨_, rfl, rfl⟩
    | some lval =>
      show ∃ r, (if (lval - logf (mgOd0max expf inp)) / mgMumax inp < 0 then
          GrowthOutcome.ok ⟨mgMumax inp, mgOd0max expf inp, mgMaxt inp, none, warn, true⟩
        else
          GrowthOutcome.ok ⟨mgMumax inp, mgOd0max expf inp, mgMaxt inp,
            some ((lval - logf (mgOd0max expf inp)) / mgMumax inp), warn, false⟩)
          = GrowthOutcome.ok r ∧ r.warn = warn
      by_cases hlag : (lval - logf (mgOd0max expf inp)) / mgMumax inp < 0
      · rw [if_pos hlag]
        exact ⟨_, rfl, rfl⟩
      · rw [if_neg hlag]
        exact ⟨_, rfl, rfl⟩

/-- C1 amended: the single-well maximal-growth-rate selection returns the
all-`None` fatal result exactly when no points remain after masking, or
μ_max ≤ 0, or the implied OD₀ at the maximum is ≤ 0, or log-OD at the lag
reference exceeds log-OD at the maximum, or the maximum sits at an *upper*
boundary (last valid index / upper time cutoff / log-OD cutoff on the
right) — always fatal, the flag notwithstanding — or the maximum sits at a
*lower* boundary (first valid index / lower time cutoff / log-OD cutoff on
the left) while `allowMaxGrowthrateAtLowerCutoff` is not set.  It is
accepted with a warning status exactly when it is not fatal and the maximum
sits at a lower boundary (which entails that the flag is set).  Every
fatal status carries `Severity.failed` and every tolerated-boundary status
carries `Severity.warning`. -/
theorem maxGrowthrateSelection_spec (expf logf : ℚ → ℚ) (inp : GrowthSelInput) :
    (((maxGrowthrateSel expf logf inp).isFatal = true ↔
      (mgValid2 inp = [] ∨ mgMumax inp ≤ 0 ∨ mgOd0max expf inp ≤ 0 ∨
       mgLagCond expf logf inp = true ∨ (mgRightFatal inp).isSome = true ∨
       ((mgLeftKey inp).isSome = true ∧
         inp.allowMaxGrowthrateAtLowerCutoff = false)))
    ∧ ((∃ r, maxGrowthrateSel expf logf inp = .ok r ∧ r.warn.isSome = true) ↔
       ((maxGrowthrateSel expf logf inp).isFatal = false ∧
         (mgLeftKey inp).isSome = true)))
    ∧ (∀ (mt : String) (f : GrowthFail),
        (GrowthFail.toStatus mt f).severity = Severity.failed)
    ∧ (∀ (mt : String) (wn : GrowthWarn),
        (GrowthWarn.toStatus mt wn).severity = Severity.warning) := by
  refine ⟨?_,
    fun mt f => by cases f <;> simp [GrowthFail.toStatus, StatusMessage.severity],
    fun mt wn => by cases wn <;> simp [GrowthWarn.toStatus, StatusMessage.severity]⟩
  have fatal_aux : ∀ f : GrowthFail, maxGrowthrateSel expf logf inp = .fatal f →
      (mgValid2 inp = [] ∨ mgMumax inp ≤ 0 ∨ mgOd0max expf inp ≤ 0 ∨
       mgLagCond expf logf inp = true ∨ (mgRightFatal inp).isSome = true ∨
       ((mgLeftKey inp).isSome = true ∧
         inp.allowMaxGrowthrateAtLowerCutoff = false)) →
      (((maxGrowthrateSel expf logf inp).isFatal = true ↔
        (mgValid2 inp = [] ∨ mgMumax inp ≤ 0 ∨ mgOd0max expf inp ≤ 0 ∨
         mgLagCond expf logf inp = true ∨ (mgRightFatal inp).isSome = true ∨
         ((mgLeftKey inp).isSome = true ∧
           inp.allowMaxGrowthrateAtLowerCutoff = false))) ∧
       ((∃ r, maxGrowthrateSel expf logf inp = .ok r ∧ r.warn.isSome = true) ↔
        ((maxGrowthrateSel expf logf inp).isFatal = false ∧
          (mgLeftKey inp).isSome = true))) := by
    intro f hsel hdis
    rw [hsel]
    refine ⟨iff_of_true rfl hdis, iff_of_false ?_ ?_⟩
    · rintro ⟨r, hr, -⟩
      cases hr
    · rintro ⟨hf, -⟩
      cases hf
  by_cases h1 : mgValid1 inp = []
  · exact fatal_aux .noMu
      (by unfold maxGrowthrateSel; rw [if_pos h1])
      (Or.inl (mgValid2_nil_of_valid1_nil inp h1))
  by_cases h2 : mgValid2 inp = []
  · exact fatal_aux .noMuWithinLimits
      (by unfold maxGrowthrateSel; rw [if_neg h1, if_pos h2]) (Or.inl h2)
  by_cases h3 : mgMumax inp ≤ 0
  · exact fatal_aux .mumaxLe0
      (by unfold maxGrowthrateSel; rw [if_neg h1, if_neg h2, if_pos h3])
      (Or.inr (Or.inl h3))
  by_cases h4 : mgOd0max expf inp ≤ 0
  · exact fatal_aux .od0maxLe0
      (by unfold maxGrowthrateSel; rw [if_neg h1, if_neg h2, if_neg h3, if_pos h4])
      (Or.inr (Or.inr (Or.inl h4)))
  by_cases h5 : mgLagCond expf logf inp = true
  · exact fatal_aux .lagGtValAtMumax
      (by unfold maxGrowthrateSel;
          rw [if_neg h1, if_neg h2, if_neg h3, if_neg h4, if_pos h5])
      (Or.inr (Or.inr (Or.inr (Or.inl h5))))
  have hor : mgLeftKey inp = none ∨ ∃ k, mgLeftKey inp = some k := by
    cases mgLeftKey inp with
    | none => exact Or.inl rfl
    | some k => exact Or.inr ⟨k, rfl⟩
  rcases hor with hk | ⟨k, hk⟩
  · have hsel : maxGrowthrateSel expf logf inp = mgAfterLeft expf logf inp none := by
      unfold maxGrowthrateSel
      rw [if_neg h1, if_neg h2, if_neg h3, if_neg h4, if_neg h5, hk]
    rcases mgAfterLeft_cases expf logf inp none with ⟨f, hf, heq⟩ | ⟨hr, r, heq, hw⟩
    · exact fatal_aux f (hsel.trans heq)
        (Or.inr (Or.inr (Or.inr (Or.inr (Or.inl (by rw [hf]; rfl))))))
    · rw [hsel, heq]
      constructor
      · refine iff_of_false (fun h => by cases h) ?_
        rintro (h | h | h | h | h | ⟨hl, -⟩)
        · exact h2 h
        · exact h3 h
        · exact h4 h
        · exact h5 h
        · rw [hr] at h
          cases h
        · rw [hk] at hl
          cases hl
      · refine iff_of_false ?_ ?_
        · rintro ⟨r2, hr2, hw2⟩
          cases hr2
          rw [hw] at hw2
          cases hw2
        · rintro ⟨-, hl⟩
          rw [hk] at hl
          cases hl
  · by_cases ha : inp.allowMaxGrowthrateAtLowerCutoff = true
    · have hsel : maxGrowthrateSel expf logf inp
          = mgAfterLeft expf logf inp (some k) := by
        unfold maxGrowthrateSel
        rw [if_neg h1, if_neg h2, if_neg h3, if_neg h4, if_neg h5, hk]
        simp [ha]
      rcases mgAfterLeft_cases expf logf inp (some k)
        with ⟨f, hf, heq⟩ | ⟨hr, r, heq, hw⟩
      · exact fatal_aux f (hsel.trans heq)
          (Or.inr (Or.inr (Or.inr (Or.inr (Or.inl (by rw [hf]; rfl))))))
      · rw [hsel, heq]
        constructor
        · refine iff_of_false (fun h => by cases h) ?_
          rintro (h | h | h | h | h | ⟨-, hal⟩)
          · exact h2 h
          · exact h3 h
          · exact h4 h
          · exact h5 h
          · rw [hr] at h
            cases h
          · rw [ha] at hal
            cases hal
        · exact iff_of_true ⟨r, rfl, by rw [hw]; rfl⟩ ⟨rfl, by rw [hk]; rfl⟩
    · have hfalse : inp.allowMaxGrowthrateAtLowerCutoff = false := by
        simp only [Bool.not_eq_true] at ha
        exact ha
      exact fatal_aux k.toFail
        (by unfold maxGrowthrateSel;
            rw [if_neg h1, if_neg h2, if_neg h3, if_neg h4, if_neg h5, hk];
            simp [hfalse])
        (Or.inr (Or.inr (Or.inr (Or.inr (Or.inr ⟨by rw [hk]; rfl, hfalse⟩)))))

/-- Counterexample for C1: with the flag set, a maximum at the *first* valid
index is accepted with a warning (the claim says it is always fatal), while
a maximum at the *upper time cutoff* is rejected fatally even though the
flag is set (the claim says the flag makes it a warning). -/
theorem maxGrowthrateBoundary_counterexample :
    (mgSelIdx c1CexA = 0
      ∧ c1CexA.allowMaxGrowthrateAtLowerCutoff = true
      ∧ maxGrowthrateSel (fun _ => 1) (fun _ => 0) c1CexA
          = .ok ⟨2, 1, 0, none, some .maxAtFirstNonNan, false⟩)
    ∧ (c1CexB.maxGrowthUpperTimeCutoff = some 1
      ∧ c1CexB.allowMaxGrowthrateAtLowerCutoff = true
      ∧ mgSelIdx c1CexB = 1
      ∧ maxGrowthrateSel (fun _ => 1) (fun _ => 0) c1CexB
          = .fatal .maxAtUpperCutoffRemoved) := by
  have hv2A : mgValid2 c1CexA = [0, 1] := rfl
  have hselA : mgSelIdx c1CexA = 0 := by
    unfold mgSelIdx
    rw [hv2A]
    have hm0 : mgMuVal c1CexA 0 = 2 := rfl
    have hm1 : mgMuVal c1CexA 1 = 1 := rfl
    simp only [argmaxIdx, List.foldl, hm0, hm1]
    norm_num
  have hmuA : mgMumax c1CexA = 2 := by
    unfold mgMumax
    rw [hselA]
    rfl
  have hmaxtA : mgMaxt c1CexA = 0 := by
    unfold mgMaxt
    rw [hselA]
    rfl
  have hodA : mgOd0max (fun _ => 1) c1CexA = 1 := by
    unfold mgOd0max
    rw [hselA]
    norm_num [c1CexA]
  have hlkA : mgLeftKey c1CexA = some .maxAtFirstNonNan := by
    unfold mgLeftKey
    rw [hselA]
    rfl
  have hrfA : mgRightFatal c1CexA = none := by
    unfold mgRightFatal
    rw [hselA]
    rfl
  have hfinA : maxGrowthrateSel (fun _ => 1) (fun _ => 0) c1CexA
      = .ok ⟨2, 1, 0, none, some .maxAtFirstNonNan, false⟩ := by
    unfold maxGrowthrateSel
    rw [if_neg (by rw [show mgValid1 c1CexA = [0, 1] from rfl]; simp),
      if_neg (by rw [hv2A]; simp),
      if_neg (by rw [hmuA]; norm_num),
      if_neg (by rw [hodA]; norm_num),
      if_neg (by rw [show mgLagCond (fun _ => (1 : ℚ)) (fun _ => (0 : ℚ)) c1CexA
        = false from rfl]; simp),
      hlkA]
    show mgAfterLeft (fun _ => 1) (fun _ => 0) c1CexA (some .maxAtFirstNonNan)
      = .ok ⟨2, 1, 0, none, some .maxAtFirstNonNan, false⟩
    unfold mgAfterLeft
    rw [hrfA]
    show GrowthOutcome.ok ⟨mgMumax c1CexA, mgOd0max (fun _ => 1) c1CexA,
      mgMaxt c1CexA, none, some .maxAtFirstNonNan, false⟩ = _
    rw [hmuA, hodA, hmaxtA]
  have e0 : mgIdcs2 c1CexB 0 = true := by
    norm_num [mgIdcs2, mgIdcs1, mgFidcs, mgCOk, mgLOk, mgUOk, c1CexB]
  have e1 : mgIdcs2 c1CexB 1 = true := by
    norm_num [mgIdcs2, mgIdcs1, mgFidcs, mgCOk, mgLOk, mgUOk, c1CexB]
  have e2 : mgIdcs2 c1CexB 2 = false := by
    norm_num [mgIdcs2, mgIdcs1, mgFidcs, mgCOk, mgLOk, mgUOk, c1CexB]
  have hv2B : mgValid2 c1CexB = [0, 1] := by
    show (List.range (mgN c1CexB)).filter (mgIdcs2 c1CexB) = [0, 1]
    rw [show List.range (mgN c1CexB) = [0, 1, 2] from rfl]
    simp [List.filter_cons, e0, e1, e2]
  have hselB : mgSelIdx c1CexB = 1 := by
    unfold mgSelIdx
    rw [hv2B]
    have hm0 : mgMuVal c1CexB 0 = 1 := rfl
    have hm1 : mgMuVal c1CexB 1 = 2 := rfl
    simp only [argmaxIdx, List.foldl, hm0, hm1]
    norm_num
  have hmuB : mgMumax c1CexB = 2 := by
    unfold mgMumax
    rw [hselB]
    rfl
  have hodB : mgOd0max (fun _ => 1) c1CexB = 1 := by
    unfold mgOd0max
    rw [hselB]
    norm_num [c1CexB]
  have hlkB : mgLeftKey c1CexB = none := by
    unfold mgLeftKey
    rw [hselB]
    rfl
  have huB : mgUOk c1CexB 2 = false := by
    norm_num [mgUOk, c1CexB]
  have hrfB : mgRightFatal c1CexB = some .maxAtUpperCutoffRemoved := by
    unfold mgRightFatal
    rw [hselB]
    have hfid : mgFidcs c1CexB 2 = true := rfl
    have hn : mgN c1CexB = 3 := rfl
    have hup : c1CexB.maxGrowthUpperTimeCutoff = some 1 := rfl
    norm_num [huB, hfid, hn, hup]
  have hfinB : maxGrowthrateSel (fun _ => 1) (fun _ => 0) c1CexB
      = .fatal .maxAtUpperCutoffRemoved := by
    unfold maxGrowthrateSel
    rw [if_neg (by rw [show mgValid1 c1CexB = [0, 1, 2] from rfl]; simp),
      if_neg (by rw [hv2B]; simp),
      if_neg (by rw [hmuB]; norm_num),
      if_neg (by rw [hodB]; norm_num),
      if_neg (by rw [show mgLagCond (fun _ => (1 : ℚ)) (fun _ => (0 : ℚ)) c1CexB
        = false from rfl]; simp),
      hlkB]
    show mgAfterLeft (fun _ => 1) (fun _ => 0) c1CexB none
      = .fatal .maxAtUpperCutoffRemoved
    unfold mgAfterLeft
    rw [hrfB]
  exact ⟨⟨hselA, rfl, hfinA⟩, rfl, rfl, hselB, hfinB⟩

/-! ### C7 -/

/-- The argmax fold either keeps its accumulator or returns a list member. -/
theorem foldl_argmax_mem (f : Nat → ℚ) :
    ∀ (rest : List Nat) (acc : Nat),
      rest.foldl (fun best j => if f best < f j then j else best) acc = acc
        ∨ rest.foldl (fun best j => if f best < f j then j else best) acc ∈ rest := by
  intro rest
  induction rest with
  | nil => intro acc; exact Or.inl rfl
  | cons j rest ih =>
    intro acc
    rw [List.foldl_cons]
    rcases ih (if f acc < f j then j else acc) with h | h
    · rw [h]
      by_cases hj : f acc < f j
      · rw [if_pos hj]
        exact Or.inr (List.mem_cons_self j rest)
      · rw [if_neg hj]
        exact Or.inl rfl
    · exact Or.inr (List.mem_cons_of_mem j h)

/-- The argmax fold dominates its accumulator and every list member. -/
theorem foldl_argmax_ge (f : Nat → ℚ) :
    ∀ (rest : List Nat) (acc : Nat),
      f acc ≤ f (rest.foldl (fun best j => if f best < f j then j else best) acc)
        ∧ ∀ j ∈ rest,
            f j ≤ f (rest.foldl (fun best j => if f best < f j then j else best) acc) := by
  intro rest
  induction rest with
  | nil =>
    intro acc
    exact ⟨le_refl _, by simp⟩
  | cons j rest ih =>
    intro acc
    rw [List.foldl_cons]
    obtain ⟨h1, h2⟩ := ih (if f acc < f j then j else acc)
    constructor
    · refine le_trans ?_ h1
      by_cases hj : f acc < f j
      · rw [if_pos hj]
        exact le_of_lt hj
      · rw [if_neg hj]
    · intro x hx
      rcases List.mem_cons.mp hx with rfl | hx2
      · refine le_trans ?_ h1
        by_cases hj : f acc < f x
        · rw [if_pos hj]
        · rw [if_neg hj]
          exact le_of_not_lt hj
      · exact h2 x hx2

/-- `argmaxIdx` of a non-empty index list is a member attaining the maximal
value of `f` (the first such member, as `numpy.argmax` returns). -/
theorem argmaxIdx_spec (f : Nat → ℚ) (l : List Nat) (h : l ≠ []) :
    argmaxIdx f l ∈ l ∧ ∀ j ∈ l, f j ≤ f (argmaxIdx f l) := by
  cases l with
  | nil => exact absurd rfl h
  | cons i rest =>
    have heq : argmaxIdx f (i :: rest)
        = rest.foldl (fun best j => if f best < f j then j else best) i := rfl
    rw [heq]
    obtain ⟨h1, h2⟩ := foldl_argmax_ge f rest i
    constructor
    · rcases foldl_argmax_mem f rest i with he | hm
      · rw [he]
        exact List.mem_cons_self i rest
      · exact List.mem_cons_of_mem i hm
    · intro j hj
      rcases List.mem_cons.mp hj with rfl | hj2
      · exact h1
      · exact h2 j hj2

/-- The scan fails to find a slack level exactly when no window qualifies at
any level from `1` up to the configured maximum (level 1 is always tried,
even when the configured maximum is 0). -/
theorem firstQualifyingN_none_iff (inp : YieldInput) :
    firstQualifyingN inp = none ↔
      ∀ n, 1 ≤ n → n ≤ max 1 inp.allowNStderrDeviations →
        ylValidIdcs inp n = [] := by
  unfold firstQualifyingN
  by_cases h1 : ylValidIdcs inp 1 = []
  · rw [if_pos h1, List.find?_eq_none]
    constructor
    · intro h n hn1 hn2
      rcases Nat.lt_or_ge n 2 with hn | hn
      · have : n = 1 := by omega
        rw [this]
        exact h1
      · have hmem : n ∈ List.range' 2 (inp.allowNStderrDeviations - 1) := by
          rw [List.mem_range'_1]
          omega
        have h2 := h n hmem
        cases hl : ylValidIdcs inp n with
        | nil => rfl
        | cons a as => exact absurd (by rw [hl]; rfl) h2
    · intro h x hx
      rw [List.mem_range'_1] at hx
      have := h x (by omega) (by omega)
      simp [this]
  · rw [if_neg h1]
    constructor
    · intro h
      cases h
    · intro h
      exact absurd (h 1 (le_refl 1) (le_max_left 1 _)) h1

/-- When the scan returns slack level `k`: some window qualifies at `k`, `k`
is within the tried range, and a level of at least 2 is used only when no
window qualified at level 1. -/
theorem firstQualifyingN_some (inp : YieldInput) (k : Nat)
    (h : firstQualifyingN inp = some k) :
    ylValidIdcs inp k ≠ [] ∧ 1 ≤ k ∧ k ≤ max 1 inp.allowNStderrDeviations
      ∧ (2 ≤ k → ylValidIdcs inp 1 = []) := by
  unfold firstQualifyingN at h
  by_cases h1 : ylValidIdcs inp 1 = []
  · rw [if_pos h1] at h
    have hmem := List.mem_of_find?_eq_some h
    have hp := List.find?_some h
    rw [List.mem_range'_1] at hmem
    refine ⟨?_, by omega, by omega, fun _ => h1⟩
    intro hnil
    simp [hnil] at hp
  · rw [if_neg h1] at h
    injection h with h
    subst h
    exact ⟨h1, le_refl 1, le_max_left 1 _, fun h2 => by omega⟩

/-- C7 (growth-yield window scan): the result is undefined (fatal) exactly
when no window ever qualifies at any slack level from 1 up to the
configured `allowGrowthyieldSlopeNStderrAwayFromZero`, or when the chosen
yield is negative; the scan fails exactly when every tried level has no
qualifying window; levels above 1 are used only when no window qualifies
at level 1; and an accepted yield is nonnegative, is the windowed mean of
a qualifying window, and dominates the windowed mean of every qualifying
window at the used level. -/
theorem growthyield_spec (inp : YieldInput) :
    ((growthyieldCore inp).isFatal = true ↔
      (firstQualifyingN inp = none ∨
       ∃ k, firstQualifyingN inp = some k ∧
         ylMean inp (argmaxIdx (ylMean inp) (ylValidIdcs inp k)) < 0))
    ∧ (firstQualifyingN inp = none ↔
        ∀ n, 1 ≤ n → n ≤ max 1 inp.allowNStderrDeviations →
          ylValidIdcs inp n = [])
    ∧ (∀ k, firstQualifyingN inp = some k →
        (ylValidIdcs inp k ≠ [] ∧ 1 ≤ k ∧ k ≤ max 1 inp.allowNStderrDeviations
          ∧ (2 ≤ k → ylValidIdcs inp 1 = [])))
    ∧ (∀ gy tgy n, growthyieldCore inp = .ok gy tgy n →
        (0 ≤ gy ∧ gy ∈ (ylValidIdcs inp n).map (ylMean inp)
          ∧ ∀ j ∈ ylValidIdcs inp n, ylMean inp j ≤ gy))
    ∧ (∀ f : YieldFail, (YieldFail.toStatus f).severity = Severity.failed) := by
  have hor : firstQualifyingN inp = none
      ∨ ∃ k, firstQualifyingN inp = some k := by
    cases firstQualifyingN inp with
    | none => exact Or.inl rfl
    | some k => exact Or.inr ⟨k, rfl⟩
  refine ⟨?_, firstQualifyingN_none_iff inp,
    fun k hk => firstQualifyingN_some inp k hk, ?_,
    fun f => by cases f <;> simp [YieldFail.toStatus, StatusMessage.severity]⟩
  · rcases hor with hq | ⟨k, hq⟩
    · have hsel : growthyieldCore inp = .fatal .noValidIndices := by
        unfold growthyieldCore
        rw [hq]
      rw [hsel]
      exact iff_of_true rfl (Or.inl hq)
    · have hstep : growthyieldCore inp = growthyieldAt inp k := by
        unfold growthyieldCore
        rw [hq]
      by_cases hneg : ylMean inp (argmaxIdx (ylMean inp) (ylValidIdcs inp k)) < 0
      · have hsel : growthyieldCore inp = .fatal .negativeYield := by
          rw [hstep]
          unfold growthyieldAt
          rw [if_pos hneg]
        rw [hsel]
        exact iff_of_true rfl (Or.inr ⟨k, hq, hneg⟩)
      · have hsel : growthyieldCore inp = .ok
            (ylMean inp (argmaxIdx (ylMean inp) (ylValidIdcs inp k)))
            (inp.time.getD (inp.slidingWindowSize / 2 + inp.timemaxIdx
              + argmaxIdx (ylMean inp) (ylValidIdcs inp k)) 0) k := by
          rw [hstep]
          unfold growthyieldAt
          rw [if_neg hneg]
        rw [hsel]
        refine iff_of_false (fun h => by cases h) ?_
        rintro (h | ⟨k2, hk2, hneg2⟩)
        · rw [hq] at h
          cases h
        · rw [hq] at hk2
          injection hk2 with hk2
          subst hk2
          exact hneg hneg2
  · intro gy tgy n hok
    rcases hor with hq | ⟨k, hq⟩
    · have hsel : growthyieldCore inp = .fatal .noValidIndices := by
        unfold growthyieldCore
        rw [hq]
      rw [hsel] at hok
      cases hok
    · have hstep : growthyieldCore inp = growthyieldAt inp k := by
        unfold growthyieldCore
        rw [hq]
      rw [hstep] at hok
      unfold growthyieldAt at hok
      by_cases hneg : ylMean inp (argmaxIdx (ylMean inp) (ylValidIdcs inp k)) < 0
      · rw [if_pos hneg] at hok
        cases hok
      · rw [if_neg hneg] at hok
        cases hok
        have hvne : ylValidIdcs inp n ≠ [] := (firstQualifyingN_some inp n hq).1
        obtain ⟨hmem, hmax⟩ := argmaxIdx_spec (ylMean inp) (ylValidIdcs inp n) hvne
        exact ⟨le_of_not_lt hneg, List.mem_map_of_mem _ hmem, hmax⟩

/-- Witness for C7: on `yieldEx` the scan qualifies at slack level 1. -/
theorem growthyield_spec_witness :
    ylValidIdcs yieldEx 1 ≠ [] ∧ 1 ≤ 1
      ∧ 1 ≤ max 1 yieldEx.allowNStderrDeviations
      ∧ (2 ≤ 1 → ylValidIdcs yieldEx 1 = []) := by
  have hval : ylValidIdcs yieldEx 1 = [0] := by
    show (List.range (ylNumWindows yieldEx)).filter _ = [0]
    rw [show List.range (ylNumWindows yieldEx) = [0] from rfl]
    have hm : ylMean yieldEx 0 = 2 := by
      norm_num [ylMean, yieldEx]
    have hs : yieldEx.slope[0]?.getD 0 = 0 := rfl
    have he : yieldEx.slopeStdErr[0]?.getD 0 = 1 := rfl
    have ho : yieldEx.odAtMaxLinSlope = 1 := rfl
    norm_num [List.filter_cons, hm, hs, he, ho]
  have hq : firstQualifyingN yieldEx = some 1 := by
    unfold firstQualifyingN
    rw [if_neg (by rw [hval]; simp)]
  exact (growthyield_spec yieldEx).2.2.1 1 hq

end Gathode
